import Mathlib

/-!
# Intersection API: a verification development

Shallow embedding of `main.go` (the geometric core: `convertToLines`,
`findIntersectingLines`, `findIntersection`) and theorems about it.

Modelling conventions.

* The code is written once, over an abstract number type `F` carrying only the
  operations it uses (`+`, `-`, `*`, `/`, the test `== 0`, the order `<=`). Facts proved
  for every such `F` hold of the program as it runs on `float64`.
* `F64` is Go's `float64` (IEEE 754 binary64, round to nearest even, one rounding per
  operation); the code at `F64` is evaluated on concrete inputs.
* Geometric facts that need exact arithmetic are proved for an arbitrary linearly
  ordered field `K` (rational or real numbers, no rounding) and say so; where `float64`
  departs from them, a theorem evaluates the code at `F64` on an input that shows it.
* A Go slice is a `List`; an index expression `xs[i]` is the partial lookup
  `xs[i]?`, and a function that contains index expressions returns `Option`,
  where `none` stands for the run-time panic "index out of range".
* A `*Point` result is an `Option (Point F)`, `nil` being `none`.
-/

namespace Intersection

/-! ## Data model (main.go, lines 11-44) -/

/-- Point represents a point in GeoJSON (`type Point struct`). -/
structure Point (F : Type) where
  Lat : F
  Lng : F
deriving DecidableEq, Repr

/-- Line represents a line with start and end points (`type Line struct`). -/
structure Line (F : Type) where
  ID : String
  Start : Point F
  End : Point F
deriving DecidableEq, Repr

/-- IntersectionResult represents the result of the intersection check. -/
structure IntersectionResult (F : Type) where
  LineID : String
  Intersection : Point F
deriving DecidableEq, Repr

/-- LineString represents a GeoJSON linestring (`Coordinates [][]float64`). -/
structure LineString (F : Type) where
  Type_ : String
  Coordinates : List (List F)
deriving DecidableEq, Repr

/-- LineData represents the data for a line. -/
structure LineData (F : Type) where
  Line : LineString F
deriving DecidableEq, Repr

/-! ## isValidAuthHeader (main.go, lines 111-122) -/

/-- The constant `validToken` of `isValidAuthHeader`. -/
def validToken : String := "a45G7hJ3lO1pR9tU2xY8zAbC6eF0"

/-- The function `isValidAuthHeader` of main.go; the debugging `fmt.Println` has no effect
on the returned value. -/
def isValidAuthHeader (header : String) : Bool :=
  header == "Bearer " ++ validToken

/-! ## convertToLines (main.go, lines 124-134) -/

/-- The call `fmt.Sprintf("L%02d", n)` for a non-negative `n`: the letter `L`, then the
decimal digits of `n` behind as many zeros as it takes to fill a width of two. -/
def sprintfL02d (n : Nat) : String :=
  "L" ++ String.mk (List.replicate (2 - (Nat.toDigits 10 n).length) '0' ++ Nat.toDigits 10 n)

section Convert

variable {F : Type} [Zero F]

/-- The zero value of `Line`, with which `make([]Line, n)` fills the new slice. -/
def zeroLine : Line F :=
  { ID := "", Start := { Lat := 0, Lng := 0 }, End := { Lat := 0, Lng := 0 } }

/-- The composite literal `Line{...}` of lines 127-131 at index `i`; `none` when one of the
index expressions `Coordinates[0][1]`, `Coordinates[0][0]`, `Coordinates[1][1]`,
`Coordinates[1][0]` is out of range. -/
def lineLiteral (i : Nat) (lineData : LineData F) : Option (Line F) :=
  match lineData.Line.Coordinates[0]?, lineData.Line.Coordinates[1]? with
  | some c0, some c1 =>
    match c0[1]?, c0[0]?, c1[1]?, c1[0]? with
    | some lat0, some lng0, some lat1, some lng1 =>
      some { ID := sprintfL02d (i + 1),
             Start := { Lat := lat0, Lng := lng0 },
             End := { Lat := lat1, Lng := lng1 } }
    | _, _, _, _ => none
  | _, _ => none

/-- One iteration of `for i, lineData := range linesData`: the assignment
`lines[i] = Line{...}`. -/
def convertStep (lines : List (Line F)) (entry : Nat × LineData F) : Option (List (Line F)) :=
  match lineLiteral entry.1 entry.2 with
  | some line => if entry.1 < lines.length then some (lines.set entry.1 line) else none
  | none => none

/-- The function `convertToLines` of main.go. -/
def convertToLines (linesData : List (LineData F)) : Option (List (Line F)) :=
  linesData.enum.foldlM convertStep (List.replicate linesData.length zeroLine)

/-- A well-formed raw segment: exactly two coordinate pairs, each of two numbers. -/
def WellFormedRaw (lineData : LineData F) : Prop :=
  lineData.Line.Coordinates.length = 2 ∧ ∀ pair ∈ lineData.Line.Coordinates, pair.length = 2

end Convert

/-- The raw data embedded in `IntersectHandler` (main.go, lines 73-93). -/
def linesData : List (LineData ℚ) :=
  [ { Line := { Type_ := "LineString",
                Coordinates := [[-74.0386542, 40.7302174], [-74.038756, 40.7295611]] } },
    { Line := { Type_ := "LineString",
                Coordinates := [[-74.061602, 40.705933], [-74.06214, 40.706563]] } } ]

/-- The polyline of the end-to-end scenario:
`[(lat 40.7305, lng -74.0386), (lat 40.7296, lng -74.0388)]`. -/
def scenarioPolyline : List (Point ℚ) :=
  [{ Lat := 40.7305, Lng := -74.0386 }, { Lat := 40.7296, Lng := -74.0388 }]

/-- The value of a string of decimal digits, read from the left. -/
def digitsValue (acc : Nat) (digits : List Char) : Nat :=
  digits.foldl (fun a c => a * 10 + (c.toNat - 48)) acc

/-- The same line stored in the other direction: `Start` and `End` exchanged. -/
def Line.flip {F : Type} (line : Line F) : Line F :=
  { ID := line.ID, Start := line.End, End := line.Start }

/-- The indices `i = 1, 2, ..., len(polyline)-1` of the query segments, in increasing
order. -/
def queryIndices {F : Type} (polyline : List (Point F)) : List Nat :=
  List.range' 1 (polyline.length - 1)

section Code

variable {F : Type} [Add F] [Sub F] [Mul F] [Div F] [Zero F] [One F] [BEq F] [LE F]
  [DecidableRel (fun a b : F => a ≤ b)]

/-! ## findIntersection (main.go, lines 152-177) -/

/-- The function `findIntersection` of main.go: `none` is the `nil` pointer. -/
def findIntersection (p1 p2 q1 q2 : Point F) : Option (Point F) :=
  let p1p2 : Point F := { Lat := p2.Lat - p1.Lat, Lng := p2.Lng - p1.Lng }
  let q1q2 : Point F := { Lat := q2.Lat - q1.Lat, Lng := q2.Lng - q1.Lng }
  let det := p1p2.Lat * q1q2.Lng - p1p2.Lng * q1q2.Lat
  if det == 0 then
    none
  else
    let t := ((q1.Lat - p1.Lat) * q1q2.Lng - (q1.Lng - p1.Lng) * q1q2.Lat) / det
    let u := ((q1.Lat - p1.Lat) * p1p2.Lng - (q1.Lng - p1.Lng) * p1p2.Lat) / det
    if t ≥ 0 ∧ t ≤ 1 ∧ u ≥ 0 ∧ u ≤ 1 then
      some { Lat := p1.Lat + t * p1p2.Lat, Lng := p1.Lng + t * p1p2.Lng }
    else
      none

/-! ## findIntersectingLines (main.go, lines 136-150) -/

/-- One iteration of the inner loop body (lines 140-146) at index `i`:
the two index expressions, the call, and the conditional `append`. -/
def innerStep (linestring : List (Point F)) (line : Line F)
    (intersections : List (IntersectionResult F)) (i : Nat) :
    Option (List (IntersectionResult F)) :=
  match linestring[i - 1]?, linestring[i]? with
  | some a, some b =>
    match findIntersection a b line.Start line.End with
    | some intersection =>
      some (intersections ++ [{ LineID := line.ID, Intersection := intersection }])
    | none => some intersections
  | _, _ => none

/-- The inner loop `for i := 1; i < len(linestring); i++` for one line. -/
def innerLoop (linestring : List (Point F)) (line : Line F)
    (intersections : List (IntersectionResult F)) :
    Option (List (IntersectionResult F)) :=
  (List.range' 1 (linestring.length - 1)).foldlM (innerStep linestring line) intersections

/-- The function `findIntersectingLines` of main.go. -/
def findIntersectingLines (linestring : List (Point F)) (lines : List (Line F)) :
    Option (List (IntersectionResult F)) :=
  lines.foldlM (fun intersections line => innerLoop linestring line intersections) []

/-! ## The same code with every partial operation made explicit

In the definitions above only an index out of range can fail. The definitions below
repeat the code with two more operations checked: a division, which fails on a zero
divisor, and the dereference `*intersection`, which fails on `nil`. -/

/-- The division `x / det`, failing when the divisor is zero. -/
def divChecked (x det : F) : Option F :=
  if det == 0 then none else some (x / det)

/-- The function `findIntersection` with checked divisions: the outer `none` is a
division by zero, the inner `none` the `nil` pointer. -/
def findIntersectionChecked (p1 p2 q1 q2 : Point F) : Option (Option (Point F)) :=
  let p1p2 : Point F := { Lat := p2.Lat - p1.Lat, Lng := p2.Lng - p1.Lng }
  let q1q2 : Point F := { Lat := q2.Lat - q1.Lat, Lng := q2.Lng - q1.Lng }
  let det := p1p2.Lat * q1q2.Lng - p1p2.Lng * q1q2.Lat
  if det == 0 then
    some none
  else
    match divChecked ((q1.Lat - p1.Lat) * q1q2.Lng - (q1.Lng - p1.Lng) * q1q2.Lat) det with
    | none => none
    | some t =>
      match divChecked ((q1.Lat - p1.Lat) * p1p2.Lng - (q1.Lng - p1.Lng) * p1p2.Lat) det with
      | none => none
      | some u =>
        if t ≥ 0 ∧ t ≤ 1 ∧ u ≥ 0 ∧ u ≤ 1 then
          some (some { Lat := p1.Lat + t * p1p2.Lat, Lng := p1.Lng + t * p1p2.Lng })
        else
          some none

/-- The loop body with the test `intersection != nil` and the dereference
`*intersection` as separate steps. -/
def innerStepChecked (linestring : List (Point F)) (line : Line F)
    (intersections : List (IntersectionResult F)) (i : Nat) :
    Option (List (IntersectionResult F)) :=
  match linestring[i - 1]?, linestring[i]? with
  | some a, some b =>
    match findIntersectionChecked a b line.Start line.End with
    | none => none
    | some intersection =>
      if intersection.isSome then
        match intersection with
        | some X => some (intersections ++ [{ LineID := line.ID, Intersection := X }])
        | none => none
      else
        some intersections
  | _, _ => none

/-- The inner loop over the checked body. -/
def innerLoopChecked (linestring : List (Point F)) (line : Line F)
    (intersections : List (IntersectionResult F)) :
    Option (List (IntersectionResult F)) :=
  (List.range' 1 (linestring.length - 1)).foldlM (innerStepChecked linestring line)
    intersections

/-- The function `findIntersectingLines` over the checked body: `none` is any run-time
failure (index out of range, `nil` dereference, division by zero). -/
def findIntersectingLinesChecked (linestring : List (Point F)) (lines : List (Line F)) :
    Option (List (IntersectionResult F)) :=
  lines.foldlM (fun intersections line => innerLoopChecked linestring line intersections) []

/-! ## The result order of the specification -/

/-- What the specification keeps at index `i` for one reference segment: `(segment.ID, X)`
when `findIntersection(polyline[i-1], polyline[i], segment.Start, segment.End)` returns a
point `X`, nothing otherwise. -/
def specEntry (polyline : List (Point F)) (segment : Line F)
    (i : { i : Nat // i ∈ queryIndices polyline }) : Option (IntersectionResult F) :=
  have hi : i.val < polyline.length := by
    have h := i.property
    unfold queryIndices at h
    rw [List.mem_range'_1] at h
    omega
  have hp : i.val - 1 < polyline.length := Nat.lt_of_le_of_lt (Nat.sub_le _ _) hi
  (findIntersection polyline[i.val - 1] polyline[i.val] segment.Start segment.End).map
    (fun X => { LineID := segment.ID, Intersection := X })

/-- The entry at index `i` written with partial lookups, as the loop body computes it. -/
def stepEntry (linestring : List (Point F)) (line : Line F) (i : Nat) :
    Option (IntersectionResult F) :=
  match linestring[i - 1]?, linestring[i]? with
  | some a, some b =>
    (findIntersection a b line.Start line.End).map
      (fun X => { LineID := line.ID, Intersection := X })
  | _, _ => none

/-- The entries of one reference segment, by increasing query index. -/
def specResultsFor (polyline : List (Point F)) (segment : Line F) :
    List (IntersectionResult F) :=
  (queryIndices polyline).attach.filterMap (specEntry polyline segment)

/-- The result list of the specification: the concatenation, over the reference segments
in list order, of their entries. -/
def specResults (polyline : List (Point F)) (segments : List (Line F)) :
    List (IntersectionResult F) :=
  segments.flatMap (specResultsFor polyline)

end Code

/-! ## The parametric rule of the specification -/

section SpecFormulas

variable {F : Type} [Add F] [Sub F] [Mul F] [Div F] [Zero F] [One F] [BEq F] [LE F]

/-- Componentwise difference `a - b` of two points, read as plane vectors. -/
def Point.sub (a b : Point F) : Point F :=
  { Lat := a.Lat - b.Lat, Lng := a.Lng - b.Lng }

/-- The point `p + s * v` for a point `p`, a scalar `s` and a vector `v`. -/
def Point.addScaled (p : Point F) (s : F) (v : Point F) : Point F :=
  { Lat := p.Lat + s * v.Lat, Lng := p.Lng + s * v.Lng }

/-- The determinant of the specification:
`det = (p2-p1).lat*(q2-q1).lng - (p2-p1).lng*(q2-q1).lat`. -/
def specDet (p1 p2 q1 q2 : Point F) : F :=
  (p2.sub p1).Lat * (q2.sub q1).Lng - (p2.sub p1).Lng * (q2.sub q1).Lat

/-- The parameter `t` of the specification, along the query segment. -/
def specT (p1 p2 q1 q2 : Point F) : F :=
  ((q1.sub p1).Lat * (q2.sub q1).Lng - (q1.sub p1).Lng * (q2.sub q1).Lat) / specDet p1 p2 q1 q2

/-- The parameter `u` of the specification, along the reference segment. -/
def specU (p1 p2 q1 q2 : Point F) : F :=
  ((q1.sub p1).Lat * (p2.sub p1).Lng - (q1.sub p1).Lng * (p2.sub p1).Lat) / specDet p1 p2 q1 q2

/-- The condition under which the specification reports a point: `det != 0` (the test
`det == 0` of the arithmetic fails) and both `t` and `u` in the closed interval `[0, 1]`. -/
def SpecHit (p1 p2 q1 q2 : Point F) : Prop :=
  (specDet p1 p2 q1 q2 == 0) = false ∧
    (0 ≤ specT p1 p2 q1 q2 ∧ specT p1 p2 q1 q2 ≤ 1) ∧
    (0 ≤ specU p1 p2 q1 q2 ∧ specU p1 p2 q1 q2 ≤ 1)

/-- The point `p1 + t*(p2-p1)` the specification reports. -/
def specPoint (p1 p2 q1 q2 : Point F) : Point F :=
  p1.addScaled (specT p1 p2 q1 q2) (p2.sub p1)

end SpecFormulas

section Spec

variable {K : Type} [LinearOrderedField K]

/-- `X` lies on the closed segment from `a` to `b`:
`X = a + s*(b-a)` for some `s` in `[0, 1]`. -/
def OnSegment (X a b : Point K) : Prop :=
  ∃ s : K, 0 ≤ s ∧ s ≤ 1 ∧ X = a.addScaled s (b.sub a)

/-- The four points lie on one common line `a*lat + b*lng = c` (with `(a, b) ≠ (0, 0)`):
the two segments are collinear, whether or not they overlap. -/
def Collinear (p1 p2 q1 q2 : Point K) : Prop :=
  ∃ a b c : K, (a ≠ 0 ∨ b ≠ 0) ∧
    a * p1.Lat + b * p1.Lng = c ∧ a * p2.Lat + b * p2.Lng = c ∧
    a * q1.Lat + b * q1.Lng = c ∧ a * q2.Lat + b * q2.Lng = c

end Spec

/-! ## The float64 arithmetic of the code

Go's `float64` is IEEE 754 binary64. Every finite binary64 value is an integer multiple
of `2^(-1074)`, so a finite value is stored as a sign and a magnitude counted in that
unit. Each operation computes its exact result and rounds it once, to the nearest
representable value, ties to even; a rounded magnitude of `2^1024` or more is an
infinity. Multiplications and additions are rounded separately (no fused
multiply-add), as Go compiles them for amd64. -/

/-- An IEEE 754 binary64 value: `fin neg mag` is `(-1)^neg * mag * 2^(-1074)`. -/
inductive F64 where
  | fin (neg : Bool) (mag : Nat)
  | inf (neg : Bool)
  | nan
deriving DecidableEq, Repr

namespace F64

/-- The integer nearest to `num / den`, ties to the even one. -/
def roundNearestEven (num den : Nat) : Nat :=
  let q := num / den
  let r := num % den
  if 2 * r < den then q
  else if den < 2 * r then q + 1
  else if q % 2 = 0 then q
  else q + 1

/-- The number of binary digits of `n`, counted with `fuel` steps. -/
def bitLengthAux : Nat → Nat → Nat
  | 0, _ => 0
  | fuel + 1, n => if n = 0 then 0 else bitLengthAux fuel (n / 2) + 1

/-- The number of binary digits of `n` (`0` for `n = 0`). -/
def bitLength (n : Nat) : Nat := bitLengthAux n n

/-- The magnitude `num / den` (in units of `2^(-1074)`) rounded to 53 significant bits, or
to a whole number of units below `2^53` units; `none` when the rounded magnitude reaches
`2^1024`, that is `2^2098` units. -/
def roundMag (num den : Nat) : Option Nat :=
  let shift := bitLength (num / den) - 53
  let m := roundNearestEven num (den * 2 ^ shift) * 2 ^ shift
  if m < 2 ^ 2098 then some m else none

/-- The binary64 value nearest to `(-1)^neg * num / den` units. -/
def round (neg : Bool) (num den : Nat) : F64 :=
  match roundMag num den with
  | some m => fin neg m
  | none => inf neg

/-- The binary64 value nearest to the decimal number `(-1)^neg * num / den`: what the Go
compiler and `encoding/json` make of a decimal literal. -/
def ofDecimal (neg : Bool) (num den : Nat) : F64 :=
  round neg (num * 2 ^ 1074) den

/-- Unary minus. -/
def neg : F64 → F64
  | fin s m => fin (!s) m
  | inf s => inf (!s)
  | nan => nan

/-- The operator `+` on float64. -/
def add : F64 → F64 → F64
  | nan, _ => nan
  | _, nan => nan
  | inf a, inf b => if a = b then inf a else nan
  | inf a, fin _ _ => inf a
  | fin _ _, inf b => inf b
  | fin a x, fin b y =>
    if a = b then round a (x + y) 1
    else if x = y then fin false 0
    else if y < x then round a (x - y) 1
    else round b (y - x) 1

/-- The operator `-` on float64. -/
def sub (x y : F64) : F64 := add x (neg y)

/-- The operator `*` on float64. -/
def mul : F64 → F64 → F64
  | nan, _ => nan
  | _, nan => nan
  | inf a, inf b => inf (xor a b)
  | inf a, fin b y => if y = 0 then nan else inf (xor a b)
  | fin a x, inf b => if x = 0 then nan else inf (xor a b)
  | fin a x, fin b y => round (xor a b) (x * y) (2 ^ 1074)

/-- The operator `/` on float64. -/
def div : F64 → F64 → F64
  | nan, _ => nan
  | _, nan => nan
  | inf _, inf _ => nan
  | inf a, fin b _ => inf (xor a b)
  | fin a _, inf b => fin (xor a b) 0
  | fin a x, fin b y =>
    if y = 0 then (if x = 0 then nan else inf (xor a b))
    else round (xor a b) (x * 2 ^ 1074) y

/-- The comparison `<=` on float64: false when an operand is NaN. -/
def le : F64 → F64 → Bool
  | nan, _ => false
  | _, nan => false
  | inf a, inf b => a || !b
  | inf a, fin _ _ => a
  | fin _ _, inf b => !b
  | fin false x, fin false y => decide (x ≤ y)
  | fin true x, fin true y => decide (y ≤ x)
  | fin true _, fin false _ => true
  | fin false x, fin true y => decide (x = 0 ∧ y = 0)

/-- The comparison `==` on float64: false when an operand is NaN, true for `0 == -0`. -/
def eq : F64 → F64 → Bool
  | nan, _ => false
  | _, nan => false
  | inf a, inf b => a == b
  | inf _, fin _ _ => false
  | fin _ _, inf _ => false
  | fin a x, fin b y => decide ((x = 0 ∧ y = 0) ∨ (a = b ∧ x = y))

/-- The exact value of a finite float64 as a rational number (`0` for an infinity or
NaN, which have none). -/
def toRat : F64 → ℚ
  | fin false m => (m : ℚ) / 2 ^ 1074
  | fin true m => - ((m : ℚ) / 2 ^ 1074)
  | inf _ => 0
  | nan => 0

/-- The magnitude of a finite value in units of `2^(-1074)` (`0` otherwise). -/
def mag : F64 → Nat
  | fin _ m => m
  | inf _ => 0
  | nan => 0

/-- A finite value: neither an infinity nor NaN. -/
def isFinite : F64 → Bool
  | fin _ _ => true
  | inf _ => false
  | nan => false

end F64

instance : Add F64 := ⟨F64.add⟩

instance : Sub F64 := ⟨F64.sub⟩

instance : Mul F64 := ⟨F64.mul⟩

instance : Div F64 := ⟨F64.div⟩

instance : Zero F64 := ⟨F64.fin false 0⟩

instance : One F64 := ⟨F64.fin false (2 ^ 1074)⟩

instance (priority := 2000) : BEq F64 := ⟨F64.eq⟩

instance : LE F64 := ⟨fun x y => F64.le x y = true⟩

instance : DecidableRel (fun a b : F64 => a ≤ b) :=
  fun a b => inferInstanceAs (Decidable (F64.le a b = true))

/-- The exact position of a point with finite float64 coordinates. -/
def Point.toRat (p : Point F64) : Point ℚ :=
  { Lat := p.Lat.toRat, Lng := p.Lng.toRat }

/-- Both coordinates are finite. -/
def Point.isFinite (p : Point F64) : Bool :=
  p.Lat.isFinite && p.Lng.isFinite

/-- The point with the float64 coordinates nearest to the decimal numbers
`latNum / latDen` and `lngNum / lngDen` (both non-negative). -/
def Point.ofDecimal (latNum latDen lngNum lngDen : Nat) : Point F64 :=
  { Lat := F64.ofDecimal false latNum latDen, Lng := F64.ofDecimal false lngNum lngDen }

/-! ## Shared lemmas -/

section Lemmas

variable {K : Type} [LinearOrderedField K]

theorem findIntersection_unfold (p1 p2 q1 q2 : Point K) :
    findIntersection p1 p2 q1 q2 =
      if specDet p1 p2 q1 q2 = 0 then none
      else if 0 ≤ specT p1 p2 q1 q2 ∧ specT p1 p2 q1 q2 ≤ 1 ∧
          0 ≤ specU p1 p2 q1 q2 ∧ specU p1 p2 q1 q2 ≤ 1 then
        some (specPoint p1 p2 q1 q2)
      else none := by
  simp only [findIntersection, specDet, specT, specU, specPoint, Point.sub, Point.addScaled,
    beq_iff_eq, ge_iff_le]

theorem findIntersection_of_det_zero (p1 p2 q1 q2 : Point K)
    (h : specDet p1 p2 q1 q2 = 0) : findIntersection p1 p2 q1 q2 = none := by
  rw [findIntersection_unfold, if_pos h]

theorem specDet_eq_zero_of_collinear (p1 p2 q1 q2 : Point K)
    (h : Collinear p1 p2 q1 q2) : specDet p1 p2 q1 q2 = 0 := by
  obtain ⟨a, b, c, hab, h1, h2, h3, h4⟩ := h
  simp only [specDet, Point.sub]
  rcases hab with ha | hb
  · have : a * ((p2.Lat - p1.Lat) * (q2.Lng - q1.Lng) -
        (p2.Lng - p1.Lng) * (q2.Lat - q1.Lat)) = 0 := by
      linear_combination (q2.Lng - q1.Lng) * (h2 - h1) - (p2.Lng - p1.Lng) * (h4 - h3)
    rcases mul_eq_zero.mp this with h0 | h0
    · exact absurd h0 ha
    · exact h0
  · have : b * ((p2.Lat - p1.Lat) * (q2.Lng - q1.Lng) -
        (p2.Lng - p1.Lng) * (q2.Lat - q1.Lat)) = 0 := by
      linear_combination (p2.Lat - p1.Lat) * (h4 - h3) - (q2.Lat - q1.Lat) * (h2 - h1)
    rcases mul_eq_zero.mp this with h0 | h0
    · exact absurd h0 hb
    · exact h0

/-- Away from `det = 0` the point computed along the query segment is also the point at
parameter `u` along the reference segment. -/
theorem specPoint_eq_reference (p1 p2 q1 q2 : Point K) (h : specDet p1 p2 q1 q2 ≠ 0) :
    specPoint p1 p2 q1 q2 = q1.addScaled (specU p1 p2 q1 q2) (q2.sub q1) := by
  simp only [specDet, Point.sub] at h
  simp only [specPoint, specT, specU, specDet, Point.sub, Point.addScaled, Point.mk.injEq]
  constructor
  · field_simp
    ring
  · field_simp
    ring

/-- What a returned point tells: the guard held and the point is `p1 + t*(p2-p1)`. -/
theorem findIntersection_eq_some (p1 p2 q1 q2 X : Point K)
    (h : findIntersection p1 p2 q1 q2 = some X) :
    specDet p1 p2 q1 q2 ≠ 0 ∧
    (0 ≤ specT p1 p2 q1 q2 ∧ specT p1 p2 q1 q2 ≤ 1 ∧
      0 ≤ specU p1 p2 q1 q2 ∧ specU p1 p2 q1 q2 ≤ 1) ∧
    X = specPoint p1 p2 q1 q2 := by
  rw [findIntersection_unfold] at h
  by_cases hd : specDet p1 p2 q1 q2 = 0
  · rw [if_pos hd] at h
    exact absurd h (by simp)
  · rw [if_neg hd] at h
    by_cases hc : 0 ≤ specT p1 p2 q1 q2 ∧ specT p1 p2 q1 q2 ≤ 1 ∧
        0 ≤ specU p1 p2 q1 q2 ∧ specU p1 p2 q1 q2 ≤ 1
    · rw [if_pos hc] at h
      exact ⟨hd, hc, (Option.some.inj h).symm⟩
    · rw [if_neg hc] at h
      exact absurd h (by simp)

theorem findIntersection_sound (p1 p2 q1 q2 X : Point K)
    (h : findIntersection p1 p2 q1 q2 = some X) :
    OnSegment X p1 p2 ∧ OnSegment X q1 q2 := by
  obtain ⟨hd, ⟨h1, h2, h3, h4⟩, hX⟩ := findIntersection_eq_some p1 p2 q1 q2 X h
  refine ⟨⟨specT p1 p2 q1 q2, h1, h2, ?_⟩, ⟨specU p1 p2 q1 q2, h3, h4, ?_⟩⟩
  · rw [hX]
    rfl
  · rw [hX]
    exact specPoint_eq_reference p1 p2 q1 q2 hd

/-- A common point of two non-parallel closed segments is the point the code computes. -/
theorem findIntersection_complete (p1 p2 q1 q2 X : Point K)
    (hd : specDet p1 p2 q1 q2 ≠ 0) (hp : OnSegment X p1 p2) (hq : OnSegment X q1 q2) :
    findIntersection p1 p2 q1 q2 = some X := by
  obtain ⟨s, hs0, hs1, hXs⟩ := hp
  obtain ⟨r, hr0, hr1, hXr⟩ := hq
  have hd2 := hd
  simp only [specDet, Point.sub] at hd2
  rw [hXs] at hXr
  simp only [Point.addScaled, Point.sub, Point.mk.injEq] at hXr
  obtain ⟨e1, e2⟩ := hXr
  have hT : specT p1 p2 q1 q2 = s := by
    simp only [specT, specDet, Point.sub]
    rw [div_eq_iff hd2]
    linear_combination (q2.Lat - q1.Lat) * e2 - (q2.Lng - q1.Lng) * e1
  have hU : specU p1 p2 q1 q2 = r := by
    simp only [specU, specDet, Point.sub]
    rw [div_eq_iff hd2]
    linear_combination (p2.Lat - p1.Lat) * e2 - (p2.Lng - p1.Lng) * e1
  rw [findIntersection_unfold, if_neg hd, hT, hU, if_pos ⟨hs0, hs1, hr0, hr1⟩, hXs]
  simp only [specPoint, hT]

theorem specDet_swap_query (p1 p2 q1 q2 : Point K) :
    specDet p2 p1 q1 q2 = - specDet p1 p2 q1 q2 := by
  simp only [specDet, Point.sub]
  ring

theorem specT_swap_query (p1 p2 q1 q2 : Point K) (h : specDet p1 p2 q1 q2 ≠ 0) :
    specT p2 p1 q1 q2 = 1 - specT p1 p2 q1 q2 := by
  have h2 : specDet p2 p1 q1 q2 ≠ 0 := by
    rw [specDet_swap_query]
    exact neg_ne_zero.mpr h
  simp only [specDet, Point.sub] at h h2
  simp only [specT, specDet, Point.sub]
  field_simp
  ring

theorem specU_swap_query (p1 p2 q1 q2 : Point K) (h : specDet p1 p2 q1 q2 ≠ 0) :
    specU p2 p1 q1 q2 = specU p1 p2 q1 q2 := by
  have h2 : specDet p2 p1 q1 q2 ≠ 0 := by
    rw [specDet_swap_query]
    exact neg_ne_zero.mpr h
  simp only [specDet, Point.sub] at h h2
  simp only [specU, specDet, Point.sub]
  field_simp
  ring

theorem specPoint_swap_query (p1 p2 q1 q2 : Point K) (h : specDet p1 p2 q1 q2 ≠ 0) :
    specPoint p2 p1 q1 q2 = specPoint p1 p2 q1 q2 := by
  simp only [specPoint, specT_swap_query p1 p2 q1 q2 h, Point.addScaled, Point.sub,
    Point.mk.injEq]
  constructor <;> ring

theorem specDet_swap_ref (p1 p2 q1 q2 : Point K) :
    specDet p1 p2 q2 q1 = - specDet p1 p2 q1 q2 := by
  simp only [specDet, Point.sub]
  ring

theorem specT_swap_ref (p1 p2 q1 q2 : Point K) (h : specDet p1 p2 q1 q2 ≠ 0) :
    specT p1 p2 q2 q1 = specT p1 p2 q1 q2 := by
  have h2 : specDet p1 p2 q2 q1 ≠ 0 := by
    rw [specDet_swap_ref]
    exact neg_ne_zero.mpr h
  simp only [specDet, Point.sub] at h h2
  simp only [specT, specDet, Point.sub]
  field_simp
  ring

theorem specU_swap_ref (p1 p2 q1 q2 : Point K) (h : specDet p1 p2 q1 q2 ≠ 0) :
    specU p1 p2 q2 q1 = 1 - specU p1 p2 q1 q2 := by
  have h2 : specDet p1 p2 q2 q1 ≠ 0 := by
    rw [specDet_swap_ref]
    exact neg_ne_zero.mpr h
  simp only [specDet, Point.sub] at h h2
  simp only [specU, specDet, Point.sub]
  field_simp
  ring

theorem specPoint_swap_ref (p1 p2 q1 q2 : Point K) (h : specDet p1 p2 q1 q2 ≠ 0) :
    specPoint p1 p2 q2 q1 = specPoint p1 p2 q1 q2 := by
  simp only [specPoint, specT_swap_ref p1 p2 q1 q2 h]

/-- Exchanging the reference segment's endpoints keeps `t`, maps `u` to `1 - u`, and so
keeps the result. -/
theorem findIntersection_flip_ref (p1 p2 q1 q2 : Point K) :
    findIntersection p1 p2 q2 q1 = findIntersection p1 p2 q1 q2 := by
  rw [findIntersection_unfold, findIntersection_unfold]
  by_cases hd : specDet p1 p2 q1 q2 = 0
  · have hd2 : specDet p1 p2 q2 q1 = 0 := by rw [specDet_swap_ref, hd, neg_zero]
    rw [if_pos hd, if_pos hd2]
  · have hd2 : specDet p1 p2 q2 q1 ≠ 0 := by
      rw [specDet_swap_ref]
      exact neg_ne_zero.mpr hd
    rw [if_neg hd, if_neg hd2, specT_swap_ref p1 p2 q1 q2 hd,
      specU_swap_ref p1 p2 q1 q2 hd, specPoint_swap_ref p1 p2 q1 q2 hd]
    have hiff : (0 ≤ specT p1 p2 q1 q2 ∧ specT p1 p2 q1 q2 ≤ 1 ∧
        0 ≤ 1 - specU p1 p2 q1 q2 ∧ 1 - specU p1 p2 q1 q2 ≤ 1) ↔
        (0 ≤ specT p1 p2 q1 q2 ∧ specT p1 p2 q1 q2 ≤ 1 ∧
        0 ≤ specU p1 p2 q1 q2 ∧ specU p1 p2 q1 q2 ≤ 1) := by
      constructor
      · rintro ⟨a, b, c, d⟩
        exact ⟨a, b, by linarith, by linarith⟩
      · rintro ⟨a, b, c, d⟩
        exact ⟨a, b, by linarith, by linarith⟩
    by_cases hc : 0 ≤ specT p1 p2 q1 q2 ∧ specT p1 p2 q1 q2 ≤ 1 ∧
        0 ≤ specU p1 p2 q1 q2 ∧ specU p1 p2 q1 q2 ≤ 1
    · rw [if_pos hc, if_pos (hiff.mpr hc)]
    · rw [if_neg hc, if_neg (fun h => hc (hiff.mp h))]

theorem specDet_degenerate_query (p q1 q2 : Point K) : specDet p p q1 q2 = 0 := by
  simp [specDet, Point.sub]

theorem specDet_degenerate_ref (p1 p2 q : Point K) : specDet p1 p2 q q = 0 := by
  simp [specDet, Point.sub]

end Lemmas

theorem mem_queryIndices {F : Type} {polyline : List (Point F)} {i : Nat}
    (h : i ∈ queryIndices polyline) : 1 ≤ i ∧ i < polyline.length := by
  unfold queryIndices at h
  rw [List.mem_range'_1] at h
  omega

section LoopLemmas

variable {F : Type} [Add F] [Sub F] [Mul F] [Div F] [Zero F] [One F] [BEq F] [LE F]
  [DecidableRel (fun a b : F => a ≤ b)]

/-- The code of `findIntersection` written with the formulas of the specification, in
the arithmetic of the code. -/
theorem findIntersection_rule (p1 p2 q1 q2 : Point F) :
    findIntersection p1 p2 q1 q2 =
      if (specDet p1 p2 q1 q2 == 0) = true then none
      else if 0 ≤ specT p1 p2 q1 q2 ∧ specT p1 p2 q1 q2 ≤ 1 ∧
          0 ≤ specU p1 p2 q1 q2 ∧ specU p1 p2 q1 q2 ≤ 1 then
        some (specPoint p1 p2 q1 q2)
      else none := by
  simp only [findIntersection, specDet, specT, specU, specPoint, Point.sub, Point.addScaled,
    ge_iff_le]

/-- What a returned point tells, in every arithmetic: the guard held and the point is
the computed `p1 + t*(p2-p1)`. -/
theorem findIntersection_some_iff (p1 p2 q1 q2 X : Point F) :
    findIntersection p1 p2 q1 q2 = some X ↔
      SpecHit p1 p2 q1 q2 ∧ X = specPoint p1 p2 q1 q2 := by
  rw [findIntersection_rule]
  unfold SpecHit
  cases hd : (specDet p1 p2 q1 q2 == 0) with
  | true => simp
  | false =>
    by_cases hc : 0 ≤ specT p1 p2 q1 q2 ∧ specT p1 p2 q1 q2 ≤ 1 ∧
        0 ≤ specU p1 p2 q1 q2 ∧ specU p1 p2 q1 q2 ≤ 1
    · obtain ⟨h1, h2, h3, h4⟩ := hc
      simp [h1, h2, h3, h4, eq_comm]
    · have hn : ¬ ((0 ≤ specT p1 p2 q1 q2 ∧ specT p1 p2 q1 q2 ≤ 1) ∧
          (0 ≤ specU p1 p2 q1 q2 ∧ specU p1 p2 q1 q2 ≤ 1)) := by
        rintro ⟨⟨a, b⟩, c, d⟩
        exact hc ⟨a, b, c, d⟩
      simp [hc, hn]

theorem findIntersection_none_iff (p1 p2 q1 q2 : Point F) :
    findIntersection p1 p2 q1 q2 = none ↔ ¬ SpecHit p1 p2 q1 q2 := by
  constructor
  · intro h hhit
    have := (findIntersection_some_iff p1 p2 q1 q2 (specPoint p1 p2 q1 q2)).mpr ⟨hhit, rfl⟩
    rw [h] at this
    exact Option.noConfusion this
  · intro h
    cases hf : findIntersection p1 p2 q1 q2 with
    | none => rfl
    | some X => exact absurd ((findIntersection_some_iff p1 p2 q1 q2 X).mp hf).1 h

/-- A two-point polyline against one line: a single call of `findIntersection`. -/
theorem findIntersectingLines_pair (p1 p2 : Point F) (line : Line F) :
    findIntersectingLines [p1, p2] [line] =
      some (match findIntersection p1 p2 line.Start line.End with
        | some X => [{ LineID := line.ID, Intersection := X }]
        | none => []) := by
  simp only [findIntersectingLines, innerLoop, innerStep, List.foldlM, List.length_cons,
    List.length_nil, List.range']
  cases h : findIntersection p1 p2 line.Start line.End <;> simp [h]

theorem specEntry_eq_stepEntry (polyline : List (Point F)) (segment : Line F)
    (i : { i : Nat // i ∈ queryIndices polyline }) :
    specEntry polyline segment i = stepEntry polyline segment i.val := by
  have hi : i.val < polyline.length := (mem_queryIndices i.property).2
  have hp : i.val - 1 < polyline.length := Nat.lt_of_le_of_lt (Nat.sub_le _ _) hi
  simp only [specEntry, stepEntry, List.getElem?_eq_getElem hi, List.getElem?_eq_getElem hp]

theorem specResultsFor_eq (polyline : List (Point F)) (segment : Line F) :
    specResultsFor polyline segment =
      (queryIndices polyline).filterMap (stepEntry polyline segment) := by
  unfold specResultsFor
  have h : specEntry polyline segment = fun i => stepEntry polyline segment i.val :=
    funext (specEntry_eq_stepEntry polyline segment)
  rw [h]
  have h2 := List.filterMap_map (Subtype.val) (stepEntry polyline segment)
    (queryIndices polyline).attach
  rw [List.attach_map_subtype_val] at h2
  rw [h2]
  rfl

/-- The inner loop over in-range indices never fails and appends the kept entries in
index order. -/
theorem foldlM_innerStep (linestring : List (Point F)) (line : Line F) :
    ∀ (indices : List Nat) (acc : List (IntersectionResult F)),
      (∀ i ∈ indices, i < linestring.length) →
      indices.foldlM (innerStep linestring line) acc =
        some (acc ++ indices.filterMap (stepEntry linestring line)) := by
  intro indices
  induction indices with
  | nil => intro acc _; simp [List.foldlM]
  | cons i rest ih =>
    intro acc hall
    have hi : i < linestring.length := hall i (List.mem_cons_self _ _)
    have hp : i - 1 < linestring.length := Nat.lt_of_le_of_lt (Nat.sub_le _ _) hi
    have hrest : ∀ j ∈ rest, j < linestring.length :=
      fun j hj => hall j (List.mem_cons_of_mem _ hj)
    rw [List.foldlM_cons]
    cases hf : findIntersection linestring[i - 1] linestring[i] line.Start line.End with
    | none =>
      have h1 : innerStep linestring line acc i = some acc := by
        simp only [innerStep, List.getElem?_eq_getElem hi, List.getElem?_eq_getElem hp, hf]
      have h2 : stepEntry linestring line i = none := by
        simp only [stepEntry, List.getElem?_eq_getElem hi, List.getElem?_eq_getElem hp, hf,
          Option.map_none']
      rw [h1, List.filterMap_cons_none h2]
      exact ih acc hrest
    | some X =>
      have h1 : innerStep linestring line acc i =
          some (acc ++ [{ LineID := line.ID, Intersection := X }]) := by
        simp only [innerStep, List.getElem?_eq_getElem hi, List.getElem?_eq_getElem hp, hf]
      have h2 : stepEntry linestring line i =
          some { LineID := line.ID, Intersection := X } := by
        simp only [stepEntry, List.getElem?_eq_getElem hi, List.getElem?_eq_getElem hp, hf,
          Option.map_some']
      rw [h1, List.filterMap_cons_some h2]
      have := ih (acc ++ [{ LineID := line.ID, Intersection := X }]) hrest
      simpa using this

theorem innerLoop_eq (linestring : List (Point F)) (line : Line F)
    (acc : List (IntersectionResult F)) :
    innerLoop linestring line acc = some (acc ++ specResultsFor linestring line) := by
  rw [specResultsFor_eq]
  exact foldlM_innerStep linestring line (queryIndices linestring) acc
    (fun i hi => (mem_queryIndices hi).2)

theorem foldlM_innerLoop (linestring : List (Point F)) :
    ∀ (lines : List (Line F)) (acc : List (IntersectionResult F)),
      lines.foldlM (fun intersections line => innerLoop linestring line intersections) acc =
        some (acc ++ specResults linestring lines) := by
  intro lines
  induction lines with
  | nil => intro acc; simp [List.foldlM, specResults]
  | cons line rest ih =>
    intro acc
    rw [List.foldlM_cons, innerLoop_eq]
    have := ih (acc ++ specResultsFor linestring line)
    simpa [specResults, List.flatMap_cons] using this

theorem findIntersectingLines_eq (linestring : List (Point F)) (lines : List (Line F)) :
    findIntersectingLines linestring lines = some (specResults linestring lines) := by
  unfold findIntersectingLines
  rw [foldlM_innerLoop]
  simp

theorem stepEntry_eq_some (polyline : List (Point F)) (line : Line F) (i : Nat)
    (r : IntersectionResult F) :
    stepEntry polyline line i = some r ↔
      ∃ a b X, polyline[i - 1]? = some a ∧ polyline[i]? = some b ∧
        findIntersection a b line.Start line.End = some X ∧
        r = { LineID := line.ID, Intersection := X } := by
  unfold stepEntry
  constructor
  · intro h
    split at h
    · rename_i a b ha hb
      cases hf : findIntersection a b line.Start line.End with
      | none => rw [hf] at h; exact absurd h (by simp)
      | some X =>
        rw [hf] at h
        exact ⟨a, b, X, ha, hb, hf, (Option.some.inj h).symm⟩
    · exact absurd h (by simp)
  · rintro ⟨a, b, X, ha, hb, hf, hr⟩
    rw [ha, hb]
    simp only [hf, Option.map_some', hr]

theorem mem_specResults (polyline : List (Point F)) (lines : List (Line F))
    (r : IntersectionResult F) :
    r ∈ specResults polyline lines ↔
      ∃ line ∈ lines, ∃ i a b X, 1 ≤ i ∧ polyline[i - 1]? = some a ∧ polyline[i]? = some b ∧
        findIntersection a b line.Start line.End = some X ∧
        r = { LineID := line.ID, Intersection := X } := by
  unfold specResults
  rw [List.mem_flatMap]
  constructor
  · rintro ⟨line, hl, hr⟩
    rw [specResultsFor_eq, List.mem_filterMap] at hr
    obtain ⟨i, hi, he⟩ := hr
    obtain ⟨a, b, X, ha, hb, hf, hr⟩ := (stepEntry_eq_some polyline line i r).mp he
    exact ⟨line, hl, i, a, b, X, (mem_queryIndices hi).1, ha, hb, hf, hr⟩
  · rintro ⟨line, hl, i, a, b, X, h1, ha, hb, hf, hr⟩
    refine ⟨line, hl, ?_⟩
    rw [specResultsFor_eq, List.mem_filterMap]
    refine ⟨i, ?_, (stepEntry_eq_some polyline line i r).mpr ⟨a, b, X, ha, hb, hf, hr⟩⟩
    have hlt : i < polyline.length := by
      rcases Nat.lt_or_ge i polyline.length with h | h
      · exact h
      · rw [List.getElem?_eq_none h] at hb
        exact absurd hb (by simp)
    unfold queryIndices
    rw [List.mem_range'_1]
    omega

theorem specResults_of_short (polyline : List (Point F)) (lines : List (Line F))
    (h : polyline.length ≤ 1) : specResults polyline lines = [] := by
  have hq : queryIndices polyline = [] := by
    unfold queryIndices
    have : polyline.length - 1 = 0 := by omega
    rw [this]
    rfl
  unfold specResults
  rw [List.flatMap_eq_nil_iff]
  intro line _
  rw [specResultsFor_eq, hq]
  rfl

/-- The checked divisions never fail: they are reached only behind the guard. -/
theorem findIntersectionChecked_eq (p1 p2 q1 q2 : Point F) :
    findIntersectionChecked p1 p2 q1 q2 = some (findIntersection p1 p2 q1 q2) := by
  simp only [findIntersectionChecked, findIntersection, divChecked]
  split_ifs with hd hc
  · rfl
  · simp only [if_pos hc]
  · simp only [if_neg hc]

theorem innerStepChecked_eq (linestring : List (Point F)) (line : Line F)
    (acc : List (IntersectionResult F)) (i : Nat) :
    innerStepChecked linestring line acc i = innerStep linestring line acc i := by
  unfold innerStepChecked innerStep
  cases linestring[i - 1]? with
  | none => rfl
  | some a =>
    cases linestring[i]? with
    | none => rfl
    | some b =>
      simp only [findIntersectionChecked_eq]
      cases findIntersection a b line.Start line.End <;> simp

theorem findIntersectingLinesChecked_eq (linestring : List (Point F)) (lines : List (Line F)) :
    findIntersectingLinesChecked linestring lines = findIntersectingLines linestring lines := by
  have hstep : ∀ line : Line F,
      innerStepChecked linestring line = innerStep linestring line :=
    fun line => funext (fun acc => funext (fun i => innerStepChecked_eq linestring line acc i))
  have hloop : (fun (intersections : List (IntersectionResult F)) (line : Line F) =>
      innerLoopChecked linestring line intersections) =
      (fun intersections line => innerLoop linestring line intersections) := by
    funext acc line
    simp only [innerLoopChecked, innerLoop, hstep]
  unfold findIntersectingLinesChecked findIntersectingLines
  rw [hloop]

theorem length_specResultsFor_le (polyline : List (Point F)) (line : Line F) :
    (specResultsFor polyline line).length ≤ polyline.length - 1 := by
  rw [specResultsFor_eq]
  refine Nat.le_trans (List.length_filterMap_le _ _) ?_
  simp [queryIndices]

theorem length_specResults_le (polyline : List (Point F)) (lines : List (Line F)) :
    (specResults polyline lines).length ≤ lines.length * (polyline.length - 1) := by
  induction lines with
  | nil => simp [specResults]
  | cons line rest ih =>
    have h1 := length_specResultsFor_le polyline line
    have hcons : specResults polyline (line :: rest) =
        specResultsFor polyline line ++ specResults polyline rest := by
      simp [specResults, List.flatMap_cons]
    rw [hcons, List.length_append, List.length_cons, Nat.succ_mul]
    omega

end LoopLemmas

/-! ## Theorems -/

section ConvertLemmas

theorem length_le_toDigitsCore (fuel n : Nat) (ds : List Char) :
    ds.length ≤ (Nat.toDigitsCore 10 fuel n ds).length := by
  induction fuel generalizing n ds with
  | zero => simp [Nat.toDigitsCore]
  | succ fuel ih =>
    simp only [Nat.toDigitsCore]
    split
    · simp
    · exact Nat.le_trans (by simp) (ih _ _)

theorem toDigits_of_lt_ten (n : Nat) (h : n < 10) :
    Nat.toDigits 10 n = [Nat.digitChar n] := by
  have h0 : n / 10 = 0 := Nat.div_eq_of_lt h
  have h1 : n % 10 = n := Nat.mod_eq_of_lt h
  simp [Nat.toDigits, Nat.toDigitsCore, h0, h1]

theorem two_le_length_toDigits (n : Nat) (h : 10 ≤ n) :
    2 ≤ (Nat.toDigits 10 n).length := by
  have h0 : n / 10 ≠ 0 := by omega
  obtain ⟨m, hm⟩ : ∃ m, n = m + 1 := ⟨n - 1, by omega⟩
  simp only [Nat.toDigits, Nat.toDigitsCore, if_neg h0]
  rw [hm]
  simp only [Nat.toDigitsCore]
  split
  · simp
  · exact Nat.le_trans (by simp) (length_le_toDigitsCore _ _ _)

theorem sprintfL02d_of_lt_ten (n : Nat) (h : n < 10) :
    sprintfL02d n = "L0" ++ toString n := by
  apply String.ext
  simp [sprintfL02d, toDigits_of_lt_ten n h, String.data_append, toString, Nat.repr,
    List.asString]

theorem sprintfL02d_of_ten_le (n : Nat) (h : 10 ≤ n) :
    sprintfL02d n = "L" ++ toString n := by
  have h2 := two_le_length_toDigits n h
  have h0 : 2 - (Nat.toDigits 10 n).length = 0 := by omega
  apply String.ext
  simp [sprintfL02d, h0, String.data_append, toString, Nat.repr, List.asString]

theorem lineLiteral_of_wellFormed {F : Type} (i : Nat) (lineData : LineData F)
    (h : WellFormedRaw lineData) :
    ∃ lng0 lat0 lng1 lat1 : F,
      lineData.Line.Coordinates = [[lng0, lat0], [lng1, lat1]] ∧
      lineLiteral i lineData =
        some { ID := sprintfL02d (i + 1), Start := { Lat := lat0, Lng := lng0 },
               End := { Lat := lat1, Lng := lng1 } } := by
  obtain ⟨hlen, hpairs⟩ := h
  match hc : lineData.Line.Coordinates, hlen, hpairs with
  | [c0, c1], _, hpairs =>
    have h0 : c0.length = 2 := hpairs c0 (by simp)
    have h1 : c1.length = 2 := hpairs c1 (by simp)
    match c0, c1, h0, h1 with
    | [a, b], [c, e], _, _ =>
      refine ⟨a, b, c, e, rfl, ?_⟩
      simp [lineLiteral, hc]

theorem take_succ_set {α : Type} (l : List α) (k : Nat) (x : α) (h : k < l.length) :
    (l.set k x).take (k + 1) = l.take k ++ [x] := by
  induction l generalizing k with
  | nil => simp at h
  | cons a l ih =>
    cases k with
    | zero => simp
    | succ k =>
      have hk : k < l.length := by simpa using h
      simp [ih k hk]

/-- The loop of `convertToLines`, started at index `k` with `k` slots already written:
on well-formed input it never fails, keeps the first `k` slots and writes the literal of
each remaining raw segment at its own index. -/
theorem foldlM_convertStep {F : Type} (ds : List (LineData F)) :
    ∀ (k : Nat) (acc : List (Line F)), acc.length = k + ds.length →
      (∀ d ∈ ds, WellFormedRaw d) →
      ∃ ls : List (Line F),
        (ds.enumFrom k).foldlM convertStep acc = some (acc.take k ++ ls) ∧
        ls.length = ds.length ∧
        ∀ j (hj : j < ds.length), ∃ lng0 lat0 lng1 lat1 : F,
          ds[j].Line.Coordinates = [[lng0, lat0], [lng1, lat1]] ∧
          ls[j]? = some { ID := sprintfL02d (k + j + 1),
                          Start := { Lat := lat0, Lng := lng0 },
                          End := { Lat := lat1, Lng := lng1 } } := by
  induction ds with
  | nil =>
    intro k acc hlen _
    refine ⟨[], ?_, rfl, ?_⟩
    · have : List.take k acc = acc := List.take_of_length_le (by simp at hlen; omega)
      simp [List.foldlM, this]
    · intro j hj
      simp at hj
  | cons d ds ih =>
    intro k acc hlen hwf
    obtain ⟨a, b, c, e, hc, hlit⟩ := lineLiteral_of_wellFormed k d (hwf d (by simp))
    have hk : k < acc.length := by simp at hlen; omega
    have hstep : convertStep acc (k, d) =
        some (acc.set k (Line.mk (sprintfL02d (k + 1)) ⟨b, a⟩ ⟨e, c⟩)) := by
      simp only [convertStep, hlit, if_pos hk]
    have hlen2 : (acc.set k (Line.mk (sprintfL02d (k + 1)) ⟨b, a⟩ ⟨e, c⟩)).length =
        (k + 1) + ds.length := by
      rw [List.length_set]
      simp at hlen
      omega
    obtain ⟨ls, hfold, hls, hidx⟩ := ih (k + 1) _ hlen2
      (fun d2 hd2 => hwf d2 (List.mem_cons_of_mem _ hd2))
    refine ⟨Line.mk (sprintfL02d (k + 1)) ⟨b, a⟩ ⟨e, c⟩ :: ls, ?_, by simp [hls], ?_⟩
    · rw [List.enumFrom_cons, List.foldlM_cons, hstep]
      simp only [Option.bind_eq_bind, Option.some_bind]
      rw [hfold, take_succ_set _ _ _ hk]
      simp
    · intro j hj
      cases j with
      | zero => exact ⟨a, b, c, e, hc, by simp⟩
      | succ j =>
        have hj2 : j < ds.length := by simpa using hj
        obtain ⟨a2, b2, c2, e2, hc2, hl2⟩ := hidx j hj2
        refine ⟨a2, b2, c2, e2, by simpa using hc2, ?_⟩
        have harith : k + 1 + j + 1 = k + (j + 1) + 1 := by omega
        rw [harith] at hl2
        simpa using hl2

/-- On well-formed input `convertToLines` returns a list of the same length whose entry
at position `j` is the literal built from the `j`-th raw segment. -/
theorem convertToLines_spec {F : Type} [Zero F] (raw : List (LineData F))
    (h : ∀ d ∈ raw, WellFormedRaw d) :
    ∃ lines : List (Line F),
      convertToLines raw = some lines ∧ lines.length = raw.length ∧
      ∀ j (hj : j < raw.length), ∃ lng0 lat0 lng1 lat1 : F,
        raw[j].Line.Coordinates = [[lng0, lat0], [lng1, lat1]] ∧
        lines[j]? = some { ID := sprintfL02d (j + 1),
                           Start := { Lat := lat0, Lng := lng0 },
                           End := { Lat := lat1, Lng := lng1 } } := by
  obtain ⟨ls, hfold, hls, hidx⟩ := foldlM_convertStep raw 0
    (List.replicate raw.length zeroLine) (by simp) h
  refine ⟨ls, ?_, hls, ?_⟩
  · unfold convertToLines List.enum
    rw [hfold]
    simp
  · intro j hj
    obtain ⟨a, b, c, e, hc, hl⟩ := hidx j hj
    exact ⟨a, b, c, e, hc, by simpa using hl⟩

theorem digitChar_value (k : Nat) (h : k < 10) : (Nat.digitChar k).toNat - 48 = k := by
  interval_cases k <;> rfl

/-- Reading back the digits that `Nat.toDigitsCore` writes in front of `ds`. -/
theorem digitsValue_toDigitsCore (fuel : Nat) :
    ∀ (n : Nat) (ds : List Char), n < fuel →
      digitsValue 0 (Nat.toDigitsCore 10 fuel n ds) = digitsValue n ds := by
  induction fuel with
  | zero => intro n ds h; omega
  | succ fuel ih =>
    intro n ds h
    have hmod : (Nat.digitChar (n % 10)).toNat - 48 = n % 10 :=
      digitChar_value (n % 10) (Nat.mod_lt _ (by decide))
    simp only [Nat.toDigitsCore]
    split
    · rename_i h0
      have hn : n % 10 = n := by omega
      rw [hn] at hmod
      simp only [digitsValue, List.foldl_cons, hmod, hn, Nat.zero_mul, Nat.zero_add]
    · rename_i h0
      rw [ih (n / 10) _ (by omega)]
      have hn : n / 10 * 10 + n % 10 = n := by omega
      simp only [digitsValue, List.foldl_cons, hmod, hn]

theorem digitsValue_zeros (k : Nat) (ds : List Char) :
    digitsValue 0 (List.replicate k '0' ++ ds) = digitsValue 0 ds := by
  induction k with
  | zero => simp
  | succ k ih =>
    have h0 : ('0' : Char).toNat - 48 = 0 := by decide
    simp only [digitsValue, List.replicate_succ, List.cons_append, List.foldl_cons, h0] at ih ⊢
    exact ih

/-- The number can be read back from the identifier. -/
theorem digitsValue_sprintfL02d (n : Nat) :
    digitsValue 0 (sprintfL02d n).data.tail = n := by
  have hdata : (sprintfL02d n).data =
      'L' :: (List.replicate (2 - (Nat.toDigits 10 n).length) '0' ++ Nat.toDigits 10 n) := by
    simp only [sprintfL02d, String.data_append]
    rfl
  rw [hdata, List.tail_cons, digitsValue_zeros]
  unfold Nat.toDigits
  rw [digitsValue_toDigitsCore (n + 1) n [] (Nat.lt_succ_self n)]
  rfl

theorem sprintfL02d_injective (n m : Nat) (h : sprintfL02d n = sprintfL02d m) : n = m := by
  have h1 := digitsValue_sprintfL02d n
  rw [h, digitsValue_sprintfL02d m] at h1
  exact h1.symm

end ConvertLemmas

section FlipLemmas

variable {K : Type} [LinearOrderedField K]

theorem stepEntry_flip (polyline : List (Point K)) (line : Line K) (i : Nat) :
    stepEntry polyline line.flip i = stepEntry polyline line i := by
  unfold stepEntry
  cases polyline[i - 1]? with
  | none => rfl
  | some a =>
    cases polyline[i]? with
    | none => rfl
    | some b => simp only [Line.flip, findIntersection_flip_ref]

theorem specResultsFor_flip (polyline : List (Point K)) (line : Line K) :
    specResultsFor polyline line.flip = specResultsFor polyline line := by
  rw [specResultsFor_eq, specResultsFor_eq]
  have h : stepEntry polyline line.flip = stepEntry polyline line :=
    funext (stepEntry_flip polyline line)
  rw [h]

/-- Storing some of the reference segments in the other direction changes nothing. -/
theorem specResults_flip (polyline : List (Point K)) (sel : Line K → Bool)
    (lines : List (Line K)) :
    specResults polyline (lines.map (fun line => if sel line then line.flip else line)) =
      specResults polyline lines := by
  induction lines with
  | nil => rfl
  | cons line rest ih =>
    have hcons : ∀ (l : Line K) (ls : List (Line K)), specResults polyline (l :: ls) =
        specResultsFor polyline l ++ specResults polyline ls := by
      intro l ls
      simp [specResults, List.flatMap_cons]
    rw [List.map_cons, hcons, hcons, ih]
    cases sel line with
    | false => simp
    | true => simp [specResultsFor_flip]

end FlipLemmas

section FloatLemmas

/-- The exact value of a non-negative finite float64 is its magnitude times the unit. -/
theorem F64.toRat_scale :
    ∃ c : ℚ, 0 < c ∧ ∀ m : Nat, F64.toRat (F64.fin false m) = (m : ℚ) * c := by
  refine ⟨((2 : ℚ) ^ 1074)⁻¹, by positivity, fun m => ?_⟩
  simp only [F64.toRat, div_eq_mul_inv]

/-- In float64 `NaN == NaN` is false and `0 == -0` is true: the comparison of the
arithmetic, not the equality of representations. -/
theorem F64.beq_examples :
    (F64.nan == F64.nan) = false ∧ ((0 : F64) == F64.fin true 0) = true ∧
    ((1 : F64) == F64.ofDecimal false 1 1) = true := by
  decide!

/-- Well-known float64 results: `0.1` is `3602879701896397 * 2^(-55)`;
`0.1 + 0.2 = 0.30000000000000004`; `1/3 = 0.3333333333333333`;
`0.3/0.1 = 2.9999999999999996`; `1e16 + 1 = 1e16` (a tie, to even); the largest finite
value doubled is `+Inf`; the smallest positive value halved is `0`; `1/0 = +Inf`,
`0/0 = NaN`, `0 * (-1) = -0`. -/
theorem F64.arithmetic_examples :
    F64.ofDecimal false 1 10 = F64.fin false (3602879701896397 * 2 ^ 1019) ∧
    F64.ofDecimal false 1 10 + F64.ofDecimal false 2 10 =
      F64.ofDecimal false 30000000000000004 100000000000000000 ∧
    (1 : F64) / F64.ofDecimal false 3 1 =
      F64.ofDecimal false 3333333333333333 10000000000000000 ∧
    F64.ofDecimal false 3 10 / F64.ofDecimal false 1 10 =
      F64.ofDecimal false 29999999999999996 10000000000000000 ∧
    F64.ofDecimal false 10000000000000000 1 + 1 = F64.ofDecimal false 10000000000000000 1 ∧
    F64.ofDecimal false (17976931348623157 * 10 ^ 292) 1 * F64.ofDecimal false 2 1 =
      F64.inf false ∧
    F64.fin false 1 / F64.ofDecimal false 2 1 = 0 ∧
    (1 : F64) / 0 = F64.inf false ∧
    (0 : F64) / 0 = F64.nan ∧
    (0 : F64) * F64.neg 1 = F64.fin true 0 := by
  refine ⟨by decide!, by decide!, by decide!, by decide!, by decide!, by decide!, by decide!,
    by decide!, by decide!, by decide!⟩

variable {K : Type} [LinearOrderedField K]

/-- On a segment whose endpoints differ in latitude, the only point with the latitude of
the end is the end itself. -/
theorem OnSegment.lng_eq_of_lat_eq (X a b : Point K) (h : OnSegment X a b)
    (hlat : X.Lat = b.Lat) (hne : a.Lat ≠ b.Lat) : X.Lng = b.Lng := by
  obtain ⟨s, _, _, hX⟩ := h
  simp only [Point.addScaled, Point.sub] at hX
  have h1 : X.Lat = a.Lat + s * (b.Lat - a.Lat) := by rw [hX]
  have h2 : X.Lng = a.Lng + s * (b.Lng - a.Lng) := by rw [hX]
  have hs : (s - 1) * (b.Lat - a.Lat) = 0 := by
    rw [hlat] at h1
    linear_combination -h1
  have hs1 : s = 1 := by
    rcases mul_eq_zero.mp hs with h | h
    · linear_combination h
    · exact absurd (by linear_combination -h) hne
  rw [h2, hs1]
  ring

end FloatLemmas

section Theorems

variable {K : Type} [LinearOrderedField K]

/-- C1: `findIntersection` is exactly the parametric rule, in the arithmetic the code
computes in (any `F`, float64 included). With `det`, `t`, `u` as in the specification and
`det != 0` read as the failure of the test `det == 0`, it returns the point
`p1 + t*(p2-p1)` if and only if `det != 0` and both `t` and `u` lie in `[0, 1]`; it
returns no point in every other case; and it never returns any other point. -/
theorem findIntersection_parametric_rule {F : Type} [Add F] [Sub F] [Mul F] [Div F]
    [Zero F] [One F] [BEq F] [LE F] [DecidableRel (fun a b : F => a ≤ b)]
    (p1 p2 q1 q2 : Point F) :
    (findIntersection p1 p2 q1 q2 = some (specPoint p1 p2 q1 q2) ↔ SpecHit p1 p2 q1 q2) ∧
    (findIntersection p1 p2 q1 q2 = none ↔ ¬ SpecHit p1 p2 q1 q2) ∧
    (∀ X, findIntersection p1 p2 q1 q2 = some X ↔
      SpecHit p1 p2 q1 q2 ∧ X = specPoint p1 p2 q1 q2) := by
  refine ⟨?_, findIntersection_none_iff p1 p2 q1 q2, findIntersection_some_iff p1 p2 q1 q2⟩
  rw [findIntersection_some_iff]
  exact ⟨fun h => h.1, fun h => ⟨h, rfl⟩⟩

/-- C2 (amended): segments whose computed determinant is exactly zero never produce a
result. In every arithmetic (float64 included), when the test `det == 0` succeeds,
`findIntersection` returns no point and `findIntersectingLines` emits nothing for the
pair. With exact arithmetic `det = 0` holds for every pair of parallel segments, in
particular for collinear ones, overlapping or not. -/
theorem parallel_segments_no_result :
    (∀ (F : Type) [Add F] [Sub F] [Mul F] [Div F] [Zero F] [One F] [BEq F] [LE F]
        [DecidableRel (fun a b : F => a ≤ b)] (p1 p2 q1 q2 : Point F) (id : String),
      (specDet p1 p2 q1 q2 == 0) = true →
        findIntersection p1 p2 q1 q2 = none ∧
        findIntersectingLines [p1, p2] [{ ID := id, Start := q1, End := q2 }] = some []) ∧
    (∀ (K : Type) [LinearOrderedField K] (p1 p2 q1 q2 : Point K) (id : String),
      specDet p1 p2 q1 q2 = 0 ∨ Collinear p1 p2 q1 q2 →
        findIntersection p1 p2 q1 q2 = none ∧
        findIntersectingLines [p1, p2] [{ ID := id, Start := q1, End := q2 }] = some []) := by
  constructor
  · intro F _ _ _ _ _ _ _ _ _ p1 p2 q1 q2 id h
    have hn : findIntersection p1 p2 q1 q2 = none := by
      rw [findIntersection_rule, if_pos h]
    refine ⟨hn, ?_⟩
    rw [findIntersectingLines_pair]
    simp only [hn]
  · intro K _ p1 p2 q1 q2 id h
    have hd : specDet p1 p2 q1 q2 = 0 := by
      rcases h with h | h
      · exact h
      · exact specDet_eq_zero_of_collinear p1 p2 q1 q2 h
    have hn := findIntersection_of_det_zero p1 p2 q1 q2 hd
    refine ⟨hn, ?_⟩
    rw [findIntersectingLines_pair]
    simp only [hn]

/-- C2 at the specification's example `Q=(0,0)-(0,10)`, `S=(0,20)-(0,30)`, in float64: the
computed determinant is zero and nothing is reported. -/
theorem parallel_segments_no_result_witness :
    (specDet (Point.ofDecimal 0 1 0 1) (Point.ofDecimal 0 1 10 1)
      (Point.ofDecimal 0 1 20 1) (Point.ofDecimal 0 1 30 1) == 0) = true ∧
    findIntersection (Point.ofDecimal 0 1 0 1) (Point.ofDecimal 0 1 10 1)
      (Point.ofDecimal 0 1 20 1) (Point.ofDecimal 0 1 30 1) = none ∧
    findIntersectingLines [Point.ofDecimal 0 1 0 1, Point.ofDecimal 0 1 10 1]
      [{ ID := "L01", Start := Point.ofDecimal 0 1 20 1, End := Point.ofDecimal 0 1 30 1 }] =
      some [] :=
  ⟨by decide!,
   parallel_segments_no_result.1 F64 (Point.ofDecimal 0 1 0 1) (Point.ofDecimal 0 1 10 1)
     (Point.ofDecimal 0 1 20 1) (Point.ofDecimal 0 1 30 1) "L01" (by decide!)⟩

/-- C2 as stated fails in float64: the segments `(0,0)-(0.1,0.3)` and `(0.1,0.3)-(0.4,1.2)`
are collinear, exactly so as float64 values, but the computed determinant is not zero and
`findIntersection` returns the point `(0.1,0.3)`, which `findIntersectingLines` reports. -/
theorem collinear_segments_reported :
    [Point.ofDecimal 0 1 0 1, Point.ofDecimal 1 10 3 10,
      Point.ofDecimal 4 10 12 10].all Point.isFinite = true ∧
    Collinear (Point.ofDecimal 0 1 0 1).toRat (Point.ofDecimal 1 10 3 10).toRat
      (Point.ofDecimal 1 10 3 10).toRat (Point.ofDecimal 4 10 12 10).toRat ∧
    (specDet (Point.ofDecimal 0 1 0 1) (Point.ofDecimal 1 10 3 10)
      (Point.ofDecimal 1 10 3 10) (Point.ofDecimal 4 10 12 10) == 0) = false ∧
    findIntersection (Point.ofDecimal 0 1 0 1) (Point.ofDecimal 1 10 3 10)
      (Point.ofDecimal 1 10 3 10) (Point.ofDecimal 4 10 12 10) =
      some (Point.ofDecimal 1 10 3 10) ∧
    findIntersectingLines [Point.ofDecimal 0 1 0 1, Point.ofDecimal 1 10 3 10]
      [{ ID := "L01", Start := Point.ofDecimal 1 10 3 10, End := Point.ofDecimal 4 10 12 10 }] =
      some [{ LineID := "L01", Intersection := Point.ofDecimal 1 10 3 10 }] := by
  refine ⟨by decide!, ?_, by decide!, by decide!, by decide!⟩
  obtain ⟨c, hc, hfin⟩ := F64.toRat_scale
  obtain ⟨x, y, hx, hy, hx4, hy4, h0, hpos⟩ : ∃ x y : Nat,
      F64.ofDecimal false 1 10 = F64.fin false x ∧
      F64.ofDecimal false 3 10 = F64.fin false y ∧
      F64.ofDecimal false 4 10 = F64.fin false (4 * x) ∧
      F64.ofDecimal false 12 10 = F64.fin false (4 * y) ∧
      F64.ofDecimal false 0 1 = F64.fin false 0 ∧ 0 < y :=
    ⟨(F64.ofDecimal false 1 10).mag, (F64.ofDecimal false 3 10).mag,
      by decide!, by decide!, by decide!, by decide!, by decide!, by decide!⟩
  have hy0 : (y : ℚ) * c ≠ 0 := by
    have : (0 : ℚ) < y := by exact_mod_cast hpos
    positivity
  refine ⟨(y : ℚ) * c, -((x : ℚ) * c), 0, Or.inl hy0, ?_, ?_, ?_, ?_⟩ <;>
    simp only [Point.toRat, Point.ofDecimal, hx, hy, hx4, hy4, h0, hfin] <;>
    push_cast <;> ring

/-- C3 (amended): soundness of a reported point. In every arithmetic (float64 included),
whenever `findIntersection` returns `X`, the computed `det` is not zero, the computed `t`
and `u` lie in `[0, 1]` and `X` is the computed `p1 + t*(p2-p1)`; and every result
`(id, X)` of `findIntersectingLines` (which always returns a list) comes from a reference
segment carrying that id and a query segment `(polyline[i-1], polyline[i])`, `1 <= i`, on
which `findIntersection` returned `X`. With exact arithmetic `X` then lies on both closed
segments. -/
theorem reported_point_on_both_segments :
    (∀ (F : Type) [Add F] [Sub F] [Mul F] [Div F] [Zero F] [One F] [BEq F] [LE F]
        [DecidableRel (fun a b : F => a ≤ b)],
      (∀ p1 p2 q1 q2 X : Point F, findIntersection p1 p2 q1 q2 = some X →
        SpecHit p1 p2 q1 q2 ∧ X = specPoint p1 p2 q1 q2) ∧
      (∀ (polyline : List (Point F)) (lines : List (Line F)),
        ∃ results, findIntersectingLines polyline lines = some results ∧
          ∀ r ∈ results, ∃ line ∈ lines, ∃ i a b, 1 ≤ i ∧
            polyline[i - 1]? = some a ∧ polyline[i]? = some b ∧
            line.ID = r.LineID ∧
            findIntersection a b line.Start line.End = some r.Intersection)) ∧
    (∀ (K : Type) [LinearOrderedField K],
      (∀ p1 p2 q1 q2 X : Point K, findIntersection p1 p2 q1 q2 = some X →
        OnSegment X p1 p2 ∧ OnSegment X q1 q2) ∧
      (∀ (polyline : List (Point K)) (lines : List (Line K)),
        ∃ results, findIntersectingLines polyline lines = some results ∧
          ∀ r ∈ results, ∃ line ∈ lines, ∃ i a b, 1 ≤ i ∧
            polyline[i - 1]? = some a ∧ polyline[i]? = some b ∧
            line.ID = r.LineID ∧
            OnSegment r.Intersection line.Start line.End ∧
            OnSegment r.Intersection a b)) := by
  constructor
  · intro F _ _ _ _ _ _ _ _ _
    refine ⟨fun p1 p2 q1 q2 X h => (findIntersection_some_iff p1 p2 q1 q2 X).mp h, ?_⟩
    intro polyline lines
    refine ⟨specResults polyline lines, findIntersectingLines_eq polyline lines, ?_⟩
    intro r hr
    obtain ⟨line, hl, i, a, b, X, h1, ha, hb, hf, hX⟩ :=
      (mem_specResults polyline lines r).mp hr
    refine ⟨line, hl, i, a, b, h1, ha, hb, ?_, ?_⟩
    · rw [hX]
    · rw [hX]
      exact hf
  · intro K _
    refine ⟨findIntersection_sound, ?_⟩
    intro polyline lines
    refine ⟨specResults polyline lines, findIntersectingLines_eq polyline lines, ?_⟩
    intro r hr
    obtain ⟨line, hl, i, a, b, X, h1, ha, hb, hf, hX⟩ :=
      (mem_specResults polyline lines r).mp hr
    have hs := findIntersection_sound a b line.Start line.End X hf
    refine ⟨line, hl, i, a, b, h1, ha, hb, ?_, ?_, ?_⟩
    · rw [hX]
    · rw [hX]
      exact hs.2
    · rw [hX]
      exact hs.1

/-- C3 at a concrete input, in float64 and in exact arithmetic: for `Q=(0,0)-(10,0)` and
`S=(10,0)-(10,10)` the point `(10,0)` is returned, with the guard of the specification,
and it lies on both segments. -/
theorem reported_point_on_both_segments_witness :
    findIntersection (Point.ofDecimal 0 1 0 1) (Point.ofDecimal 10 1 0 1)
      (Point.ofDecimal 10 1 0 1) (Point.ofDecimal 10 1 10 1) =
      some (Point.ofDecimal 10 1 0 1) ∧
    (SpecHit (Point.ofDecimal 0 1 0 1) (Point.ofDecimal 10 1 0 1)
      (Point.ofDecimal 10 1 0 1) (Point.ofDecimal 10 1 10 1) ∧
     Point.ofDecimal 10 1 0 1 = specPoint (Point.ofDecimal 0 1 0 1) (Point.ofDecimal 10 1 0 1)
      (Point.ofDecimal 10 1 0 1) (Point.ofDecimal 10 1 10 1)) ∧
    findIntersection (⟨0, 0⟩ : Point ℚ) ⟨10, 0⟩ ⟨10, 0⟩ ⟨10, 10⟩ = some ⟨10, 0⟩ ∧
    OnSegment (⟨10, 0⟩ : Point ℚ) ⟨0, 0⟩ ⟨10, 0⟩ ∧
    OnSegment (⟨10, 0⟩ : Point ℚ) ⟨10, 0⟩ ⟨10, 10⟩ :=
  ⟨by decide!,
   (reported_point_on_both_segments.1 F64).1 _ _ _ _ _ (by decide!),
   by norm_num [findIntersection],
   (reported_point_on_both_segments.2 ℚ).1 ⟨0, 0⟩ ⟨10, 0⟩ ⟨10, 0⟩ ⟨10, 10⟩ ⟨10, 0⟩
     (by norm_num [findIntersection])⟩

/-- C3 as stated fails in float64: for the query segment `(0,0)-(0,0.1)` and the reference
segment `(0.1,0.3)-(0,0.1)`, which meet at `(0,0.1)`, `findIntersection` returns
`(0, 0.09999999999999998)`, a point that is not on the reference segment. -/
theorem reported_point_off_reference_segment :
    findIntersection (Point.ofDecimal 0 1 0 1) (Point.ofDecimal 0 1 1 10)
      (Point.ofDecimal 1 10 3 10) (Point.ofDecimal 0 1 1 10) =
      some (Point.ofDecimal 0 1 9999999999999998 100000000000000000) ∧
    (Point.ofDecimal 0 1 9999999999999998 100000000000000000).isFinite = true ∧
    (Point.ofDecimal 1 10 3 10).isFinite = true ∧ (Point.ofDecimal 0 1 1 10).isFinite = true ∧
    ¬ OnSegment (Point.ofDecimal 0 1 9999999999999998 100000000000000000).toRat
      (Point.ofDecimal 1 10 3 10).toRat (Point.ofDecimal 0 1 1 10).toRat := by
  refine ⟨by decide!, by decide!, by decide!, by decide!, ?_⟩
  obtain ⟨c, hc, hfin⟩ := F64.toRat_scale
  obtain ⟨x, z, hx, hz, h0, hzx, hpos⟩ : ∃ x z : Nat,
      F64.ofDecimal false 1 10 = F64.fin false x ∧
      F64.ofDecimal false 9999999999999998 100000000000000000 = F64.fin false z ∧
      F64.ofDecimal false 0 1 = F64.fin false 0 ∧ z ≠ x ∧ 0 < x :=
    ⟨(F64.ofDecimal false 1 10).mag,
      (F64.ofDecimal false 9999999999999998 100000000000000000).mag,
      by decide!, by decide!, by decide!, by decide!, by decide!⟩
  intro hon
  have hne : (Point.ofDecimal 1 10 3 10).toRat.Lat ≠ (Point.ofDecimal 0 1 1 10).toRat.Lat := by
    simp only [Point.toRat, Point.ofDecimal, hx, h0, hfin]
    have : (0 : ℚ) < x := by exact_mod_cast hpos
    have h2 : (0 : ℚ) < (x : ℚ) * c := by positivity
    intro heq
    rw [heq] at h2
    simp at h2
  have hlat : (Point.ofDecimal 0 1 9999999999999998 100000000000000000).toRat.Lat =
      (Point.ofDecimal 0 1 1 10).toRat.Lat := by
    simp only [Point.toRat, Point.ofDecimal]
  have hlng := OnSegment.lng_eq_of_lat_eq _ _ _ hon hlat hne
  simp only [Point.toRat, Point.ofDecimal, hx, hz, hfin] at hlng
  have hzx2 : (z : ℚ) = x := mul_right_cancel₀ (ne_of_gt hc) hlng
  exact hzx (by exact_mod_cast hzx2)

/-- C4 (amended): completeness. In every arithmetic (float64 included), for every index
`i` with `1 <= i < len(polyline)` and every reference segment `S` of the list on which
`findIntersection(polyline[i-1], polyline[i], S.Start, S.End)` returns `X`,
`findIntersectingLines` returns a list containing `(S.ID, X)`. With exact arithmetic
`findIntersection` returns `X` whenever the two segments are not parallel (`det != 0`)
and share the point `X` on both closed segments, so every such crossing is reported. -/
theorem every_crossing_reported :
    (∀ (F : Type) [Add F] [Sub F] [Mul F] [Div F] [Zero F] [One F] [BEq F] [LE F]
        [DecidableRel (fun a b : F => a ≤ b)] (polyline : List (Point F)) (lines : List (Line F))
        (i : Nat) (S : Line F) (X : Point F),
      1 ≤ i → ∀ (hlt : i < polyline.length), S ∈ lines →
        findIntersection polyline[i - 1] polyline[i] S.Start S.End = some X →
        ∃ results, findIntersectingLines polyline lines = some results ∧
          { LineID := S.ID, Intersection := X } ∈ results) ∧
    (∀ (K : Type) [LinearOrderedField K] (polyline : List (Point K)) (lines : List (Line K))
        (i : Nat) (S : Line K) (X : Point K),
      1 ≤ i → ∀ (hlt : i < polyline.length), S ∈ lines →
        specDet polyline[i - 1] polyline[i] S.Start S.End ≠ 0 →
        OnSegment X polyline[i - 1] polyline[i] →
        OnSegment X S.Start S.End →
        ∃ results, findIntersectingLines polyline lines = some results ∧
          { LineID := S.ID, Intersection := X } ∈ results) := by
  constructor
  · intro F _ _ _ _ _ _ _ _ _ polyline lines i S X h1 hlt hS hf
    refine ⟨specResults polyline lines, findIntersectingLines_eq polyline lines, ?_⟩
    rw [mem_specResults]
    have hp : i - 1 < polyline.length := by omega
    exact ⟨S, hS, i, polyline[i - 1], polyline[i], X, h1, List.getElem?_eq_getElem hp,
      List.getElem?_eq_getElem hlt, hf, rfl⟩
  · intro K _ polyline lines i S X h1 hlt hS hdet hquery href
    refine ⟨specResults polyline lines, findIntersectingLines_eq polyline lines, ?_⟩
    rw [mem_specResults]
    have hp : i - 1 < polyline.length := by omega
    exact ⟨S, hS, i, polyline[i - 1], polyline[i], X, h1, List.getElem?_eq_getElem hp,
      List.getElem?_eq_getElem hlt,
      findIntersection_complete _ _ _ _ X hdet hquery href, rfl⟩

/-- C4 as stated fails in float64: the query segment `(0,0)-(0,0.1)` and the reference
segment `(0.3,0.3)-(0,0.1)` are not parallel and share their end point `(0,0.1)`, but the
computed `t` is `1.0000000000000002`, so `findIntersection` returns no point and the
result list is empty. -/
theorem shared_endpoint_missed :
    [Point.ofDecimal 0 1 0 1, Point.ofDecimal 0 1 1 10,
      Point.ofDecimal 3 10 3 10].all Point.isFinite = true ∧
    specDet (Point.ofDecimal 0 1 0 1).toRat (Point.ofDecimal 0 1 1 10).toRat
      (Point.ofDecimal 3 10 3 10).toRat (Point.ofDecimal 0 1 1 10).toRat ≠ 0 ∧
    (specDet (Point.ofDecimal 0 1 0 1) (Point.ofDecimal 0 1 1 10)
      (Point.ofDecimal 3 10 3 10) (Point.ofDecimal 0 1 1 10) == 0) = false ∧
    OnSegment (Point.ofDecimal 0 1 1 10).toRat
      (Point.ofDecimal 0 1 0 1).toRat (Point.ofDecimal 0 1 1 10).toRat ∧
    OnSegment (Point.ofDecimal 0 1 1 10).toRat
      (Point.ofDecimal 3 10 3 10).toRat (Point.ofDecimal 0 1 1 10).toRat ∧
    specT (Point.ofDecimal 0 1 0 1) (Point.ofDecimal 0 1 1 10)
      (Point.ofDecimal 3 10 3 10) (Point.ofDecimal 0 1 1 10) =
      F64.ofDecimal false 10000000000000002 10000000000000000 ∧
    findIntersection (Point.ofDecimal 0 1 0 1) (Point.ofDecimal 0 1 1 10)
      (Point.ofDecimal 3 10 3 10) (Point.ofDecimal 0 1 1 10) = none ∧
    findIntersectingLines [Point.ofDecimal 0 1 0 1, Point.ofDecimal 0 1 1 10]
      [{ ID := "L01", Start := Point.ofDecimal 3 10 3 10, End := Point.ofDecimal 0 1 1 10 }] =
      some [] := by
  refine ⟨by decide!, ?_, by decide!, ?_, ?_, by decide!, by decide!, by decide!⟩
  · obtain ⟨c, hc, hfin⟩ := F64.toRat_scale
    obtain ⟨x, w, hx, hw, h0, hxpos, hwpos⟩ : ∃ x w : Nat,
        F64.ofDecimal false 1 10 = F64.fin false x ∧
        F64.ofDecimal false 3 10 = F64.fin false w ∧
        F64.ofDecimal false 0 1 = F64.fin false 0 ∧ 0 < x ∧ 0 < w :=
      ⟨(F64.ofDecimal false 1 10).mag, (F64.ofDecimal false 3 10).mag,
        by decide!, by decide!, by decide!, by decide!, by decide!⟩
    simp only [specDet, Point.sub, Point.toRat, Point.ofDecimal, hx, hw, h0, hfin]
    have hx2 : (0 : ℚ) < x := by exact_mod_cast hxpos
    have hw2 : (0 : ℚ) < w := by exact_mod_cast hwpos
    have hval : ((0 : ℕ) : ℚ) * c - ((0 : ℕ) : ℚ) * c = 0 := by push_cast; ring
    have hprod : (0 : ℚ) < ((x : ℚ) * c) * ((w : ℚ) * c) := by positivity
    intro heq
    have : ((x : ℚ) * c) * ((w : ℚ) * c) = 0 := by
      push_cast at heq
      linear_combination heq
    rw [this] at hprod
    exact lt_irrefl _ hprod
  · exact ⟨1, zero_le_one, le_refl 1, by simp [Point.addScaled, Point.sub]⟩
  · exact ⟨1, zero_le_one, le_refl 1, by simp [Point.addScaled, Point.sub]⟩

/-- C5: result order. `findIntersectingLines` returns exactly the concatenation, over the
reference segments in list order, of the entries `(segment.ID, X)` kept for
`i = 1, ..., len(polyline)-1` in increasing order, where
`findIntersection(polyline[i-1], polyline[i], segment.Start, segment.End)` returns `X`.
This holds for every arithmetic on the coordinates. -/
theorem findIntersectingLines_order {F : Type} [Add F] [Sub F] [Mul F] [Div F] [Zero F]
    [One F] [BEq F] [LE F] [DecidableRel (fun a b : F => a ≤ b)]
    (polyline : List (Point F)) (lines : List (Line F)) :
    findIntersectingLines polyline lines =
      some (lines.flatMap (fun segment =>
        (queryIndices polyline).attach.filterMap (specEntry polyline segment))) :=
  findIntersectingLines_eq polyline lines

/-- C6 (amended): endpoint touching counts. With exact arithmetic, when the query segment
`(p1,p2)` ends where a non-parallel reference segment `(p2,q2)` starts, `findIntersection`
returns exactly `p2`, with `t = 1` and `u = 0`, and `findIntersectingLines` on that pair
returns exactly one result, at `p2`. In float64 the example `Q=(0,0)-(10,0)`,
`S=(10,0)-(10,10)` gives exactly one result, at `(10,0)`, with `t = 1` and `u = 0`. -/
theorem endpoint_touching_reported :
    (∀ (K : Type) [LinearOrderedField K] (p1 p2 q2 : Point K) (id : String),
      specDet p1 p2 p2 q2 ≠ 0 →
        findIntersection p1 p2 p2 q2 = some p2 ∧
        specT p1 p2 p2 q2 = 1 ∧ specU p1 p2 p2 q2 = 0 ∧
        findIntersectingLines [p1, p2] [{ ID := id, Start := p2, End := q2 }] =
          some [{ LineID := id, Intersection := p2 }]) ∧
    (findIntersection (Point.ofDecimal 0 1 0 1) (Point.ofDecimal 10 1 0 1)
        (Point.ofDecimal 10 1 0 1) (Point.ofDecimal 10 1 10 1) =
        some (Point.ofDecimal 10 1 0 1) ∧
      specT (Point.ofDecimal 0 1 0 1) (Point.ofDecimal 10 1 0 1)
        (Point.ofDecimal 10 1 0 1) (Point.ofDecimal 10 1 10 1) = 1 ∧
      specU (Point.ofDecimal 0 1 0 1) (Point.ofDecimal 10 1 0 1)
        (Point.ofDecimal 10 1 0 1) (Point.ofDecimal 10 1 10 1) = 0 ∧
      findIntersectingLines [Point.ofDecimal 0 1 0 1, Point.ofDecimal 10 1 0 1]
        [{ ID := "L01", Start := Point.ofDecimal 10 1 0 1, End := Point.ofDecimal 10 1 10 1 }] =
        some [{ LineID := "L01", Intersection := Point.ofDecimal 10 1 0 1 }]) := by
  refine ⟨?_, by decide!, by decide!, by decide!, by decide!⟩
  intro K _ p1 p2 q2 id h
  have hf : findIntersection p1 p2 p2 q2 = some p2 := by
    apply findIntersection_complete _ _ _ _ _ h
    · refine ⟨1, zero_le_one, le_refl 1, ?_⟩
      simp [Point.addScaled, Point.sub]
    · refine ⟨0, le_refl 0, zero_le_one, ?_⟩
      simp [Point.addScaled, Point.sub]
  have h2 := h
  simp only [specDet, Point.sub] at h2
  refine ⟨hf, ?_, ?_, ?_⟩
  · simp only [specT, specDet, Point.sub]
    exact div_self h2
  · simp only [specU, specDet, Point.sub]
    rw [div_eq_zero_iff]
    left
    ring
  · rw [findIntersectingLines_pair]
    simp only [hf]

/-- C6 at the specification's example in exact arithmetic: `Q=(0,0)-(10,0)` and
`S=(10,0)-(10,10)` give exactly one result, at `(10,0)`. -/
theorem endpoint_touching_reported_witness :
    specDet (⟨0, 0⟩ : Point ℚ) ⟨10, 0⟩ ⟨10, 0⟩ ⟨10, 10⟩ ≠ 0 ∧
    findIntersection (⟨0, 0⟩ : Point ℚ) ⟨10, 0⟩ ⟨10, 0⟩ ⟨10, 10⟩ = some ⟨10, 0⟩ ∧
    specT (⟨0, 0⟩ : Point ℚ) ⟨10, 0⟩ ⟨10, 0⟩ ⟨10, 10⟩ = 1 ∧
    specU (⟨0, 0⟩ : Point ℚ) ⟨10, 0⟩ ⟨10, 0⟩ ⟨10, 10⟩ = 0 ∧
    findIntersectingLines [(⟨0, 0⟩ : Point ℚ), ⟨10, 0⟩]
      [{ ID := "L01", Start := ⟨10, 0⟩, End := ⟨10, 10⟩ }] =
      some [{ LineID := "L01", Intersection := ⟨10, 0⟩ }] :=
  ⟨by norm_num [specDet, Point.sub],
   endpoint_touching_reported.1 ℚ ⟨0, 0⟩ ⟨10, 0⟩ ⟨10, 10⟩ "L01"
     (by norm_num [specDet, Point.sub])⟩

/-- C6 as stated fails in float64: the query segment `(0,0.2)-(0,0.9)` ends where the
non-parallel reference segment `(0,0.9)-(0.1,0)` starts, and `findIntersection` returns
`(0, 0.8999999999999999)`, which is not the shared point `(0,0.9)`. -/
theorem endpoint_touching_rounded :
    [Point.ofDecimal 0 1 2 10, Point.ofDecimal 0 1 9 10,
      Point.ofDecimal 1 10 0 1].all Point.isFinite = true ∧
    specDet (Point.ofDecimal 0 1 2 10).toRat (Point.ofDecimal 0 1 9 10).toRat
      (Point.ofDecimal 0 1 9 10).toRat (Point.ofDecimal 1 10 0 1).toRat ≠ 0 ∧
    (specDet (Point.ofDecimal 0 1 2 10) (Point.ofDecimal 0 1 9 10)
      (Point.ofDecimal 0 1 9 10) (Point.ofDecimal 1 10 0 1) == 0) = false ∧
    findIntersection (Point.ofDecimal 0 1 2 10) (Point.ofDecimal 0 1 9 10)
      (Point.ofDecimal 0 1 9 10) (Point.ofDecimal 1 10 0 1) =
      some (Point.ofDecimal 0 1 8999999999999999 10000000000000000) ∧
    Point.ofDecimal 0 1 8999999999999999 10000000000000000 ≠ Point.ofDecimal 0 1 9 10 ∧
    (F64.ofDecimal false 8999999999999999 10000000000000000 == F64.ofDecimal false 9 10) =
      false := by
  refine ⟨by decide!, ?_, by decide!, by decide!, by decide!, by decide!⟩
  obtain ⟨c, hc, hfin⟩ := F64.toRat_scale
  obtain ⟨a, b, x, ha, hb, hx, h0, hab, hxpos⟩ : ∃ a b x : Nat,
      F64.ofDecimal false 2 10 = F64.fin false a ∧
      F64.ofDecimal false 9 10 = F64.fin false b ∧
      F64.ofDecimal false 1 10 = F64.fin false x ∧
      F64.ofDecimal false 0 1 = F64.fin false 0 ∧ a < b ∧ 0 < x :=
    ⟨(F64.ofDecimal false 2 10).mag, (F64.ofDecimal false 9 10).mag,
      (F64.ofDecimal false 1 10).mag,
      by decide!, by decide!, by decide!, by decide!, by decide!, by decide!⟩
  simp only [specDet, Point.sub, Point.toRat, Point.ofDecimal, ha, hb, hx, h0, hfin]
  have hx2 : (0 : ℚ) < x := by exact_mod_cast hxpos
  have hab2 : (a : ℚ) < b := by exact_mod_cast hab
  have hprod : (0 : ℚ) < (((b : ℚ) - a) * c) * ((x : ℚ) * c) := by
    have : (0 : ℚ) < (b : ℚ) - a := by linarith
    positivity
  intro heq
  have : (((b : ℚ) - a) * c) * ((x : ℚ) * c) = 0 := by
    push_cast at heq
    linear_combination -heq
  rw [this] at hprod
  exact lt_irrefl _ hprod

/-- C7 (amended): symmetry under swapping the query segment's endpoints, with exact
arithmetic: `findIntersection(p1, p2, q1, q2)` and `findIntersection(p2, p1, q1, q2)` are
equal, both no point or both the same point. -/
theorem findIntersection_swap_query (p1 p2 q1 q2 : Point K) :
    findIntersection p1 p2 q1 q2 = findIntersection p2 p1 q1 q2 := by
  rw [findIntersection_unfold, findIntersection_unfold]
  by_cases hd : specDet p1 p2 q1 q2 = 0
  · have hd2 : specDet p2 p1 q1 q2 = 0 := by rw [specDet_swap_query, hd, neg_zero]
    rw [if_pos hd, if_pos hd2]
  · have hd2 : specDet p2 p1 q1 q2 ≠ 0 := by
      rw [specDet_swap_query]
      exact neg_ne_zero.mpr hd
    rw [if_neg hd, if_neg hd2, specT_swap_query p1 p2 q1 q2 hd,
      specU_swap_query p1 p2 q1 q2 hd, specPoint_swap_query p1 p2 q1 q2 hd]
    have hiff : (0 ≤ specT p1 p2 q1 q2 ∧ specT p1 p2 q1 q2 ≤ 1 ∧
        0 ≤ specU p1 p2 q1 q2 ∧ specU p1 p2 q1 q2 ≤ 1) ↔
        (0 ≤ 1 - specT p1 p2 q1 q2 ∧ 1 - specT p1 p2 q1 q2 ≤ 1 ∧
        0 ≤ specU p1 p2 q1 q2 ∧ specU p1 p2 q1 q2 ≤ 1) := by
      constructor
      · rintro ⟨a, b, c, d⟩
        exact ⟨by linarith, by linarith, c, d⟩
      · rintro ⟨a, b, c, d⟩
        exact ⟨by linarith, by linarith, c, d⟩
    by_cases hc : 0 ≤ specT p1 p2 q1 q2 ∧ specT p1 p2 q1 q2 ≤ 1 ∧
        0 ≤ specU p1 p2 q1 q2 ∧ specU p1 p2 q1 q2 ≤ 1
    · rw [if_pos hc, if_pos (hiff.mp hc)]
    · rw [if_neg hc, if_neg (fun h => hc (hiff.mpr h))]

/-- C7 as stated fails in float64: for `p1 = (0,0)`, `p2 = (0,0.1)` and the reference
segment `(0.3,0.3)-(0,0)`, `findIntersection(p1, p2, q1, q2)` returns the point `(0,0)`
while `findIntersection(p2, p1, q1, q2)` returns no point (`t` is `1.0000000000000002`). -/
theorem swap_query_differs :
    findIntersection (Point.ofDecimal 0 1 0 1) (Point.ofDecimal 0 1 1 10)
      (Point.ofDecimal 3 10 3 10) (Point.ofDecimal 0 1 0 1) =
      some (Point.ofDecimal 0 1 0 1) ∧
    findIntersection (Point.ofDecimal 0 1 1 10) (Point.ofDecimal 0 1 0 1)
      (Point.ofDecimal 3 10 3 10) (Point.ofDecimal 0 1 0 1) = none ∧
    specT (Point.ofDecimal 0 1 1 10) (Point.ofDecimal 0 1 0 1)
      (Point.ofDecimal 3 10 3 10) (Point.ofDecimal 0 1 0 1) =
      F64.ofDecimal false 10000000000000002 10000000000000000 := by
  refine ⟨by decide!, by decide!, by decide!⟩

/-- C8: an empty or singleton polyline yields nothing. For every polyline with 0 or 1
points and every list of reference segments, `findIntersectingLines` returns the empty
list. This holds for every arithmetic on the coordinates. -/
theorem short_polyline_no_result {F : Type} [Add F] [Sub F] [Mul F] [Div F] [Zero F]
    [One F] [BEq F] [LE F] [DecidableRel (fun a b : F => a ≤ b)]
    (polyline : List (Point F)) (lines : List (Line F)) (h : polyline.length ≤ 1) :
    findIntersectingLines polyline lines = some [] := by
  rw [findIntersectingLines_eq, specResults_of_short polyline lines h]

/-- C8 at concrete inputs: the empty polyline and a one-point polyline that lies on the
reference segment, against a non-empty segment list. -/
theorem short_polyline_no_result_witness :
    findIntersectingLines ([] : List (Point ℚ))
      [{ ID := "L01", Start := ⟨0, 0⟩, End := ⟨10, 0⟩ }] = some [] ∧
    findIntersectingLines [(⟨5, 0⟩ : Point ℚ)]
      [{ ID := "L01", Start := ⟨0, 0⟩, End := ⟨10, 0⟩ }] = some [] :=
  ⟨short_polyline_no_result [] _ (by simp),
   short_polyline_no_result [⟨5, 0⟩] _ (by simp)⟩

/-- C4 at a concrete input, in float64 and in exact arithmetic: the diagonals
`(0,0)-(10,10)` and `(0,10)-(10,0)` cross at `(5,5)`, and the result contains
`(L01, (5,5))`. -/
theorem every_crossing_reported_witness :
    (∃ results,
      findIntersectingLines [Point.ofDecimal 0 1 0 1, Point.ofDecimal 10 1 10 1]
        [{ ID := "L01", Start := Point.ofDecimal 0 1 10 1, End := Point.ofDecimal 10 1 0 1 }] =
        some results ∧
      { LineID := "L01", Intersection := Point.ofDecimal 5 1 5 1 } ∈ results) ∧
    (∃ results,
      findIntersectingLines [(⟨0, 0⟩ : Point ℚ), ⟨10, 10⟩]
        [{ ID := "L01", Start := ⟨0, 10⟩, End := ⟨10, 0⟩ }] = some results ∧
      { LineID := "L01", Intersection := (⟨5, 5⟩ : Point ℚ) } ∈ results) :=
  ⟨every_crossing_reported.1 F64 [Point.ofDecimal 0 1 0 1, Point.ofDecimal 10 1 10 1]
      [{ ID := "L01", Start := Point.ofDecimal 0 1 10 1, End := Point.ofDecimal 10 1 0 1 }] 1
      { ID := "L01", Start := Point.ofDecimal 0 1 10 1, End := Point.ofDecimal 10 1 0 1 }
      (Point.ofDecimal 5 1 5 1) (le_refl 1) (by simp) (by simp) (by decide!),
   every_crossing_reported.2 ℚ [(⟨0, 0⟩ : Point ℚ), ⟨10, 10⟩]
      [{ ID := "L01", Start := ⟨0, 10⟩, End := ⟨10, 0⟩ }] 1
      { ID := "L01", Start := ⟨0, 10⟩, End := ⟨10, 0⟩ } ⟨5, 5⟩
      (le_refl 1) (by simp) (by simp)
      (by norm_num [specDet, Point.sub])
      ⟨1 / 2, by norm_num, by norm_num, by norm_num [Point.addScaled, Point.sub]⟩
      ⟨1 / 2, by norm_num, by norm_num, by norm_num [Point.addScaled, Point.sub]⟩⟩

/-- C9: identifier derivation. On well-formed raw segments `convertToLines` returns a list
of the same length whose segment at 0-based position `i` has the ID `L` followed by the
decimal representation of `i+1` left-padded with zeros to two digits: `L0d` for
`i+1 < 10`, and `L` followed by the plain decimal number from `10` on. Three raw segments
give `L01`, `L02`, `L03` in input order. -/
theorem convertToLines_identifiers {F : Type} [Zero F] (raw : List (LineData F))
    (h : ∀ d ∈ raw, WellFormedRaw d) :
    ∃ lines : List (Line F),
      convertToLines raw = some lines ∧ lines.length = raw.length ∧
      (∀ i (hi : i < lines.length),
        lines[i].ID = "L" ++ String.mk (List.leftpad 2 '0' (toString (i + 1)).data) ∧
        (i + 1 < 10 → lines[i].ID = "L0" ++ toString (i + 1)) ∧
        (10 ≤ i + 1 → lines[i].ID = "L" ++ toString (i + 1))) ∧
      (raw.length = 3 → lines.map (fun line => line.ID) = ["L01", "L02", "L03"]) := by
  obtain ⟨lines, hconv, hlen, hidx⟩ := convertToLines_spec raw h
  have hid : ∀ i (hi : i < lines.length), lines[i].ID = sprintfL02d (i + 1) := by
    intro i hi
    obtain ⟨a, b, c, e, _, hl⟩ := hidx i (hlen ▸ hi)
    rw [List.getElem?_eq_getElem hi] at hl
    rw [Option.some.inj hl]
  refine ⟨lines, hconv, hlen, ?_, ?_⟩
  · intro i hi
    rw [hid i hi]
    refine ⟨rfl, ?_, ?_⟩
    · exact sprintfL02d_of_lt_ten (i + 1)
    · exact sprintfL02d_of_ten_le (i + 1)
  · intro h3
    rw [h3] at hlen
    match lines, hlen, hid with
    | [l0, l1, l2], _, hid =>
      have e0 := hid 0 (by simp)
      have e1 := hid 1 (by simp)
      have e2 := hid 2 (by simp)
      simp only [List.getElem_cons_zero, List.getElem_cons_succ] at e0 e1 e2
      simp only [List.map_cons, List.map_nil, e0, e1, e2]
      rfl

/-- C9 at a concrete input: three well-formed raw segments get `L01`, `L02`, `L03`. -/
theorem convertToLines_identifiers_witness :
    (∀ d ∈ ([⟨⟨"LineString", [[0, 1], [2, 3]]⟩⟩, ⟨⟨"LineString", [[4, 5], [6, 7]]⟩⟩,
        ⟨⟨"LineString", [[8, 9], [10, 11]]⟩⟩] : List (LineData ℚ)), WellFormedRaw d) ∧
    ∃ lines : List (Line ℚ),
      convertToLines ([⟨⟨"LineString", [[0, 1], [2, 3]]⟩⟩, ⟨⟨"LineString", [[4, 5], [6, 7]]⟩⟩,
        ⟨⟨"LineString", [[8, 9], [10, 11]]⟩⟩] : List (LineData ℚ)) = some lines ∧
      lines.map (fun line => line.ID) = ["L01", "L02", "L03"] := by
  have hwf : ∀ d ∈ ([⟨⟨"LineString", [[0, 1], [2, 3]]⟩⟩, ⟨⟨"LineString", [[4, 5], [6, 7]]⟩⟩,
      ⟨⟨"LineString", [[8, 9], [10, 11]]⟩⟩] : List (LineData ℚ)), WellFormedRaw d := by
    simp [WellFormedRaw]
  obtain ⟨lines, h1, _, _, h4⟩ := convertToLines_identifiers _ hwf
  exact ⟨hwf, lines, h1, h4 rfl⟩

/-- C10: longitude-first decoding. On raw segments that each hold two coordinate pairs
`[lng, lat]`, `convertToLines` returns a list of the same length whose segment at position
`i` has `Start = (Lat: coordinates[0][1], Lng: coordinates[0][0])` and
`End = (Lat: coordinates[1][1], Lng: coordinates[1][0])` of the `i`-th raw segment. -/
theorem convertToLines_longitude_first {F : Type} [Zero F] (raw : List (LineData F))
    (h : ∀ d ∈ raw, WellFormedRaw d) :
    ∃ lines : List (Line F),
      convertToLines raw = some lines ∧ lines.length = raw.length ∧
      ∀ i (hr : i < raw.length) (hl : i < lines.length),
        ∃ lng0 lat0 lng1 lat1 : F,
          raw[i].Line.Coordinates = [[lng0, lat0], [lng1, lat1]] ∧
          lines[i].Start = { Lat := lat0, Lng := lng0 } ∧
          lines[i].End = { Lat := lat1, Lng := lng1 } := by
  obtain ⟨lines, hconv, hlen, hidx⟩ := convertToLines_spec raw h
  refine ⟨lines, hconv, hlen, ?_⟩
  intro i hr hl
  obtain ⟨a, b, c, e, hc, hline⟩ := hidx i hr
  rw [List.getElem?_eq_getElem hl] at hline
  refine ⟨a, b, c, e, hc, ?_, ?_⟩
  · rw [Option.some.inj hline]
  · rw [Option.some.inj hline]

/-- C10 at the raw data embedded in `IntersectHandler`: both raw segments are well-formed
and are decoded longitude-first, in input order. -/
theorem convertToLines_longitude_first_witness :
    (∀ d ∈ linesData, WellFormedRaw d) ∧
    ∃ lines : List (Line ℚ),
      convertToLines linesData = some lines ∧
      lines.map (fun line => (line.Start, line.End)) =
        [ ({ Lat := 40.7302174, Lng := -74.0386542 }, { Lat := 40.7295611, Lng := -74.038756 }),
          ({ Lat := 40.705933, Lng := -74.061602 }, { Lat := 40.706563, Lng := -74.06214 }) ] := by
  have hwf : ∀ d ∈ linesData, WellFormedRaw d := by
    simp [WellFormedRaw, linesData]
  refine ⟨hwf, ?_⟩
  obtain ⟨lines, hconv, hlen, hidx⟩ := convertToLines_longitude_first linesData hwf
  refine ⟨lines, hconv, ?_⟩
  match lines, hlen, hidx with
  | [l0, l1], _, hidx =>
    obtain ⟨a, b, c, e, hc, hs, he⟩ := hidx 0 (by simp [linesData]) (by simp)
    obtain ⟨a2, b2, c2, e2, hc2, hs2, he2⟩ := hidx 1 (by simp [linesData]) (by simp)
    simp only [linesData, List.getElem_cons_zero, List.getElem_cons_succ, List.cons.injEq,
      and_true] at hc hc2
    obtain ⟨⟨ha, hb⟩, hc, he3⟩ := hc
    obtain ⟨⟨ha2, hb2⟩, hc2, he4⟩ := hc2
    simp only [List.getElem_cons_zero, List.getElem_cons_succ] at hs he hs2 he2
    simp only [List.map_cons, List.map_nil, hs, he, hs2, he2, ← ha, ← hb, ← hc, ← he3,
      ← ha2, ← hb2, ← hc2, ← he4]

/-- C11: identifiers are unique within a repository. On well-formed raw segments of any
length, `convertToLines` returns a list of the same length in which the IDs at two
different positions are different strings. -/
theorem convertToLines_unique_ids {F : Type} [Zero F] (raw : List (LineData F))
    (h : ∀ d ∈ raw, WellFormedRaw d) :
    ∃ lines : List (Line F),
      convertToLines raw = some lines ∧ lines.length = raw.length ∧
      ∀ i j (hi : i < lines.length) (hj : j < lines.length),
        i ≠ j → lines[i].ID ≠ lines[j].ID := by
  obtain ⟨lines, hconv, hlen, hidx⟩ := convertToLines_spec raw h
  have hid : ∀ i (hi : i < lines.length), lines[i].ID = sprintfL02d (i + 1) := by
    intro i hi
    obtain ⟨a, b, c, e, _, hl⟩ := hidx i (hlen ▸ hi)
    rw [List.getElem?_eq_getElem hi] at hl
    rw [Option.some.inj hl]
  refine ⟨lines, hconv, hlen, ?_⟩
  intro i j hi hj hne heq
  rw [hid i hi, hid j hj] at heq
  have := sprintfL02d_injective (i + 1) (j + 1) heq
  omega

/-- C11 at the raw data embedded in `IntersectHandler`: the two segments get different
identifiers. -/
theorem convertToLines_unique_ids_witness :
    (∀ d ∈ linesData, WellFormedRaw d) ∧
    ∃ lines : List (Line ℚ),
      convertToLines linesData = some lines ∧ lines.length = 2 ∧
      ∀ i j (hi : i < lines.length) (hj : j < lines.length),
        i ≠ j → lines[i].ID ≠ lines[j].ID := by
  have hwf : ∀ d ∈ linesData, WellFormedRaw d := by
    simp [WellFormedRaw, linesData]
  obtain ⟨lines, h1, h2, h3⟩ := convertToLines_unique_ids linesData hwf
  exact ⟨hwf, lines, h1, h2, h3⟩

/-- C12: zero or one result per (query segment, reference segment) pair. For a polyline of
`n` points and `m` reference segments, `findIntersectingLines` returns a list of at most
`m * max(n-1, 0)` entries (the subtraction on naturals stops at zero); a two-point polyline
against a single reference segment gives at most one entry. This holds for every
arithmetic on the coordinates. -/
theorem findIntersectingLines_length_le {F : Type} [Add F] [Sub F] [Mul F] [Div F] [Zero F]
    [One F] [BEq F] [LE F] [DecidableRel (fun a b : F => a ≤ b)]
    (polyline : List (Point F)) (lines : List (Line F)) :
    ∃ results, findIntersectingLines polyline lines = some results ∧
      results.length ≤ lines.length * (polyline.length - 1) ∧
      (polyline.length = 2 → lines.length = 1 → results.length ≤ 1) := by
  have hle := length_specResults_le polyline lines
  refine ⟨specResults polyline lines, findIntersectingLines_eq polyline lines, hle, ?_⟩
  intro h2 h1
  rw [h2, h1] at hle
  exact hle

/-- C12 at a concrete input: the two-point polyline `(0,0)-(10,0)` against the single
segment `(10,0)-(10,10)` gives exactly one entry, which meets both bounds. -/
theorem findIntersectingLines_length_le_witness :
    ∃ results,
      findIntersectingLines [(⟨0, 0⟩ : Point ℚ), ⟨10, 0⟩]
        [{ ID := "L01", Start := ⟨10, 0⟩, End := ⟨10, 10⟩ }] = some results ∧
      results.length ≤ 1 * (2 - 1) ∧ results.length ≤ 1 := by
  obtain ⟨results, h1, h2, h3⟩ := findIntersectingLines_length_le
    [(⟨0, 0⟩ : Point ℚ), ⟨10, 0⟩] [{ ID := "L01", Start := ⟨10, 0⟩, End := ⟨10, 10⟩ }]
  exact ⟨results, h1, h2, h3 rfl rfl⟩

/-- C13: totality of the engine. With every index expression, the dereference
`*intersection` and both divisions checked, `findIntersectingLines` returns a list for
every polyline (empty and singleton included) and every list of reference segments, and
it is the list of the unchecked reading; `findIntersection` with checked divisions never
fails either. This holds for every arithmetic on the coordinates. -/
theorem findIntersectingLines_total {F : Type} [Add F] [Sub F] [Mul F] [Div F] [Zero F]
    [One F] [BEq F] [LE F] [DecidableRel (fun a b : F => a ≤ b)]
    (polyline : List (Point F)) (lines : List (Line F)) :
    (∃ results, findIntersectingLinesChecked polyline lines = some results ∧
      findIntersectingLines polyline lines = some results) ∧
    (∀ p1 p2 q1 q2 : Point F,
      findIntersectionChecked p1 p2 q1 q2 = some (findIntersection p1 p2 q1 q2)) := by
  refine ⟨⟨specResults polyline lines, ?_, findIntersectingLines_eq polyline lines⟩,
    findIntersectionChecked_eq⟩
  rw [findIntersectingLinesChecked_eq]
  exact findIntersectingLines_eq polyline lines

/-- C14: the end-to-end scenario. The raw data of `IntersectHandler` gives the repository
`L01`, `L02`; the polyline `[(40.7305,-74.0386),(40.7296,-74.0388)]` shares no point with
either reference segment, and `findIntersectingLines` returns the empty list. Every
returned entry lies on the polyline segment and on the identified reference segment, and
the result is empty if the polyline crosses neither segment. -/
theorem scenario_end_to_end :
    ∃ repo : List (Line ℚ), convertToLines linesData = some repo ∧
      repo.map (fun line => line.ID) = ["L01", "L02"] ∧
      ∃ results, findIntersectingLines scenarioPolyline repo = some results ∧
        (∀ r ∈ results, ∃ line ∈ repo, line.ID = r.LineID ∧
          OnSegment r.Intersection ⟨40.7305, -74.0386⟩ ⟨40.7296, -74.0388⟩ ∧
          OnSegment r.Intersection line.Start line.End) ∧
        ((∀ line ∈ repo, ¬ ∃ X : Point ℚ,
            OnSegment X ⟨40.7305, -74.0386⟩ ⟨40.7296, -74.0388⟩ ∧
            OnSegment X line.Start line.End) → results = []) ∧
        (∀ line ∈ repo, ¬ ∃ X : Point ℚ,
          OnSegment X ⟨40.7305, -74.0386⟩ ⟨40.7296, -74.0388⟩ ∧
          OnSegment X line.Start line.End) ∧
        results = [] := by
  refine ⟨[ Line.mk "L01" ⟨40.7302174, -74.0386542⟩ ⟨40.7295611, -74.038756⟩,
            Line.mk "L02" ⟨40.705933, -74.061602⟩ ⟨40.706563, -74.06214⟩ ], rfl, rfl,
    [], ?_, ?_, fun _ => rfl, ?_, rfl⟩
  · norm_num [findIntersectingLines, innerLoop, innerStep, findIntersection,
      scenarioPolyline, List.range', List.foldlM]
  · intro r hr
    simp at hr
  · intro line hl
    simp only [List.mem_cons, List.mem_singleton, List.not_mem_nil, or_false] at hl
    rintro ⟨X, hq, href⟩
    rcases hl with rfl | rfl
    · have hdet : specDet (⟨40.7305, -74.0386⟩ : Point ℚ) ⟨40.7296, -74.0388⟩
          ⟨40.7302174, -74.0386542⟩ ⟨40.7295611, -74.038756⟩ ≠ 0 := by
        norm_num [specDet, Point.sub]
      have hsome := findIntersection_complete _ _ _ _ X hdet hq href
      have hnone : findIntersection (⟨40.7305, -74.0386⟩ : Point ℚ) ⟨40.7296, -74.0388⟩
          ⟨40.7302174, -74.0386542⟩ ⟨40.7295611, -74.038756⟩ = none := by
        norm_num [findIntersection]
      rw [hnone] at hsome
      exact Option.noConfusion hsome
    · have hdet : specDet (⟨40.7305, -74.0386⟩ : Point ℚ) ⟨40.7296, -74.0388⟩
          ⟨40.705933, -74.061602⟩ ⟨40.706563, -74.06214⟩ ≠ 0 := by
        norm_num [specDet, Point.sub]
      have hsome := findIntersection_complete _ _ _ _ X hdet hq href
      have hnone : findIntersection (⟨40.7305, -74.0386⟩ : Point ℚ) ⟨40.7296, -74.0388⟩
          ⟨40.705933, -74.061602⟩ ⟨40.706563, -74.06214⟩ = none := by
        norm_num [findIntersection]
      rw [hnone] at hsome
      exact Option.noConfusion hsome

/-- C15: the segment repository is error-free on valid input. When each raw segment has
exactly two coordinate pairs of two numbers each, no index expression of `convertToLines`
(neither `Coordinates[..][..]` nor `lines[i]`) is out of range, and it returns a list, of
the input's length. -/
theorem convertToLines_error_free {F : Type} [Zero F] (raw : List (LineData F))
    (h : ∀ d ∈ raw, WellFormedRaw d) :
    (convertToLines raw).isSome = true ∧
    ∃ lines : List (Line F), convertToLines raw = some lines ∧ lines.length = raw.length := by
  obtain ⟨lines, hconv, hlen, _⟩ := convertToLines_spec raw h
  refine ⟨?_, lines, hconv, hlen⟩
  rw [hconv]
  rfl

/-- C15 at the fixed raw data embedded in `IntersectHandler`. -/
theorem convertToLines_error_free_witness :
    (∀ d ∈ linesData, WellFormedRaw d) ∧
    (convertToLines linesData).isSome = true ∧
    ∃ lines : List (Line ℚ), convertToLines linesData = some lines ∧ lines.length = 2 :=
  have hwf : ∀ d ∈ linesData, WellFormedRaw d := by simp [WellFormedRaw, linesData]
  ⟨hwf, convertToLines_error_free linesData hwf⟩

/-- C16: authentication is an exact-equality check. `isValidAuthHeader(h)` is true if and
only if `h` is exactly `Bearer a45G7hJ3lO1pR9tU2xY8zAbC6eF0`; the empty string, the bare
token, another letter case, a trailing or a doubled blank, and a longer string with the
right prefix are all rejected. -/
theorem isValidAuthHeader_exact :
    (∀ h : String,
      isValidAuthHeader h = true ↔ h = "Bearer a45G7hJ3lO1pR9tU2xY8zAbC6eF0") ∧
    isValidAuthHeader "" = false ∧
    isValidAuthHeader "a45G7hJ3lO1pR9tU2xY8zAbC6eF0" = false ∧
    isValidAuthHeader "bearer a45G7hJ3lO1pR9tU2xY8zAbC6eF0" = false ∧
    isValidAuthHeader "Bearer a45G7hJ3lO1pR9tU2xY8zAbC6eF0 " = false ∧
    isValidAuthHeader "Bearer  a45G7hJ3lO1pR9tU2xY8zAbC6eF0" = false ∧
    isValidAuthHeader "Bearer a45G7hJ3lO1pR9tU2xY8zAbC6eF0x" = false ∧
    isValidAuthHeader "Bearer " = false := by
  refine ⟨?_, by decide, by decide, by decide, by decide, by decide, by decide, by decide⟩
  intro h
  unfold isValidAuthHeader
  rw [beq_iff_eq]
  rfl

/-- C17: degenerate segments never intersect anything. If the query segment is a single
point (`p1 = p2`) or the reference segment is (`q1 = q2`), the determinant is zero and
`findIntersection` returns no point. -/
theorem degenerate_segments_no_result (p1 p2 q1 q2 : Point K) (h : p1 = p2 ∨ q1 = q2) :
    specDet p1 p2 q1 q2 = 0 ∧ findIntersection p1 p2 q1 q2 = none := by
  have hd : specDet p1 p2 q1 q2 = 0 := by
    rcases h with h | h
    · rw [h]
      exact specDet_degenerate_query p2 q1 q2
    · rw [h]
      exact specDet_degenerate_ref p1 p2 q2
  exact ⟨hd, findIntersection_of_det_zero p1 p2 q1 q2 hd⟩

/-- C17 at the example `p1 = p2 = (5,0)`, `q1 = (0,0)`, `q2 = (10,0)`: the point lies on
the reference segment, and still nothing is returned. -/
theorem degenerate_segments_no_result_witness :
    OnSegment (⟨5, 0⟩ : Point ℚ) ⟨0, 0⟩ ⟨10, 0⟩ ∧
    specDet (⟨5, 0⟩ : Point ℚ) ⟨5, 0⟩ ⟨0, 0⟩ ⟨10, 0⟩ = 0 ∧
    findIntersection (⟨5, 0⟩ : Point ℚ) ⟨5, 0⟩ ⟨0, 0⟩ ⟨10, 0⟩ = none :=
  ⟨⟨1 / 2, by norm_num, by norm_num, by norm_num [Point.addScaled, Point.sub]⟩,
   degenerate_segments_no_result ⟨5, 0⟩ ⟨5, 0⟩ ⟨0, 0⟩ ⟨10, 0⟩ (Or.inl rfl)⟩

/-- C18: a single crossing can be reported twice. The polyline `[(0,0),(10,0),(20,0)]`
against the single segment `(10,-5)-(10,5)` yields two results with the same id, both at
`(10,0)`: the interior vertex is the end of the first query segment (`t = 1`) and the
start of the second (`t = 0`). -/
theorem vertex_crossing_reported_twice :
    findIntersectingLines [(⟨0, 0⟩ : Point ℚ), ⟨10, 0⟩, ⟨20, 0⟩]
      [{ ID := "L01", Start := ⟨10, -5⟩, End := ⟨10, 5⟩ }] =
      some [{ LineID := "L01", Intersection := ⟨10, 0⟩ },
            { LineID := "L01", Intersection := ⟨10, 0⟩ }] ∧
    specT (⟨0, 0⟩ : Point ℚ) ⟨10, 0⟩ ⟨10, -5⟩ ⟨10, 5⟩ = 1 ∧
    specT (⟨10, 0⟩ : Point ℚ) ⟨20, 0⟩ ⟨10, -5⟩ ⟨10, 5⟩ = 0 := by
  refine ⟨?_, ?_, ?_⟩
  · norm_num [findIntersectingLines, innerLoop, innerStep, findIntersection, List.range',
      List.foldlM]
  · norm_num [specT, specDet, Point.sub]
  · norm_num [specT, specDet, Point.sub]

/-- C19 (amended): symmetry under swapping the reference segment's endpoints, with exact
arithmetic: `findIntersection(p1, p2, q1, q2)` and `findIntersection(p1, p2, q2, q1)` are
equal (both no point, or the same point), so storing any of the reference segments in the
other direction does not change what `findIntersectingLines` returns. -/
theorem findIntersection_swap_reference :
    (∀ p1 p2 q1 q2 : Point K,
      findIntersection p1 p2 q1 q2 = findIntersection p1 p2 q2 q1) ∧
    (∀ (polyline : List (Point K)) (lines : List (Line K)) (sel : Line K → Bool),
      findIntersectingLines polyline
          (lines.map (fun line => if sel line then line.flip else line)) =
        findIntersectingLines polyline lines) := by
  refine ⟨fun p1 p2 q1 q2 => (findIntersection_flip_ref p1 p2 q1 q2).symm, ?_⟩
  intro polyline lines sel
  rw [findIntersectingLines_eq, findIntersectingLines_eq, specResults_flip]

/-- C19 as stated fails in float64: for the query segment `(0,0)-(0,0.1)` and the
reference segment `(0,0.1)-(0.3,0.3)`, `findIntersection` returns the point `(0,0.1)`; with
the reference segment stored the other way round it returns no point, and the result list
of `findIntersectingLines` changes from one entry to none. -/
theorem swap_reference_differs :
    findIntersection (Point.ofDecimal 0 1 0 1) (Point.ofDecimal 0 1 1 10)
      (Point.ofDecimal 0 1 1 10) (Point.ofDecimal 3 10 3 10) =
      some (Point.ofDecimal 0 1 1 10) ∧
    findIntersection (Point.ofDecimal 0 1 0 1) (Point.ofDecimal 0 1 1 10)
      (Point.ofDecimal 3 10 3 10) (Point.ofDecimal 0 1 1 10) = none ∧
    findIntersectingLines [Point.ofDecimal 0 1 0 1, Point.ofDecimal 0 1 1 10]
      [{ ID := "L01", Start := Point.ofDecimal 0 1 1 10, End := Point.ofDecimal 3 10 3 10 }] =
      some [{ LineID := "L01", Intersection := Point.ofDecimal 0 1 1 10 }] ∧
    findIntersectingLines [Point.ofDecimal 0 1 0 1, Point.ofDecimal 0 1 1 10]
      [Line.flip
        { ID := "L01", Start := Point.ofDecimal 0 1 1 10, End := Point.ofDecimal 3 10 3 10 }] =
      some [] := by
  refine ⟨by decide!, by decide!, by decide!, by decide!⟩

end Theorems

end Intersection
